import Mathlib

/-!
Verification of the talking-bookshelf conversation pipeline.

This file gives a shallow embedding, in Lean, of the Go code of the
talking-bookshelf backend: the response parser (`response.Parse`), the
validation pipeline (`Pipeline.Validate`, `BookAnnotationValidator.Validate`,
`PromptLeakValidator.Validate`, `ResponseCorrector.Generate`), the
post-generation part of `BookshelfAgent.Chat`, session compaction
(`compactSessionHistory`), the chat HTTP handler (`HandleChat`,
`chatWithRetry`, `isRateLimitError`), the rate limiter (`DailyQuota.Allow`
plus a model of the omitted middleware body), and the prompt context builder
(`BuildMessageContext`).

Strings are modelled as `List Char` (`Str`).  The three regular expressions
used by the code — the emotion tag, the suggestions tag and the book
reference patterns — are simple enough that their Go (RE2, leftmost-first)
matching semantics is implemented directly as executable scanners.
-/

set_option linter.unusedVariables false

/-- Strings of the Go program, modelled as lists of characters. -/
abbrev Str := List Char

/-! ## Basic string machinery -/

/-- Boolean literal-prefix test: `litPre p s` iff `p` is a prefix of `s`. -/
def litPre : Str → Str → Bool
  | [], _ => true
  | _ :: _, [] => false
  | a :: p, b :: s => a = b && litPre p s

/-- Boolean substring test: `occursIn p s` iff `p` occurs contiguously in `s`.
Models Go `strings.Contains`. -/
def occursIn (p : Str) : Str → Bool
  | [] => litPre p []
  | c :: s => litPre p (c :: s) || occursIn p s

/-- Whitespace predicate of Go `unicode.IsSpace` (used by `strings.TrimSpace`). -/
def goIsSpace (c : Char) : Bool :=
  c = ' ' || c = '\t' || c = '\n' || c = '\r' ||
  c.toNat = 0x0b || c.toNat = 0x0c || c.toNat = 0x85 || c.toNat = 0xa0 ||
  c.toNat = 0x1680 || (0x2000 ≤ c.toNat && c.toNat ≤ 0x200a) ||
  c.toNat = 0x2028 || c.toNat = 0x2029 || c.toNat = 0x202f ||
  c.toNat = 0x205f || c.toNat = 0x3000

/-- Go `strings.TrimSpace`. -/
def trimSpace (s : Str) : Str :=
  ((s.dropWhile goIsSpace).reverse.dropWhile goIsSpace).reverse

/-- Go `strings.Split(s, "|")` for the one-character separator used by the
suggestions parser. -/
def splitOnPipe : Str → List Str
  | [] => [[]]
  | c :: s =>
    if c = '|' then [] :: splitOnPipe s
    else
      match splitOnPipe s with
      | [] => [[c]]
      | t :: ts => (c :: t) :: ts

/-- Go `strings.ToLower`, rune by rune. -/
def lowerL (s : Str) : Str := s.map Char.toLower

/-- The agent's `joinStrings` helper (part_003): join with a separator. -/
def joinStrings (sep : Str) : List Str → Str
  | [] => []
  | [x] => x
  | x :: xs => x ++ sep ++ joinStrings sep xs

/-! ## Generic regex scanners

Each `try` function attempts to match its pattern at the start of the input
and returns the captured group together with the total length of the match.
`scanFirst` models `FindStringSubmatch` (leftmost match), `scanAll` models
`FindAllStringSubmatch(text, -1)` (successive non-overlapping leftmost
matches) and `removeAll` models `ReplaceAllString(text, "")`.  The scanning
recursions are driven by a fuel argument equal to the input length so that
all definitions are structurally recursive and kernel-computable. -/

/-- Leftmost match: returns (text before the match, capture, text after). -/
def scanFirst {α : Type} (try1 : Str → Option (α × Nat)) : Str → Option (Str × α × Str)
  | [] =>
    match try1 [] with
    | some (a, n) => some ([], a, ([] : Str).drop n)
    | none => none
  | c :: s =>
    match try1 (c :: s) with
    | some (a, n) => some ([], a, (c :: s).drop n)
    | none =>
      match scanFirst try1 s with
      | some (pre, a, post) => some (c :: pre, a, post)
      | none => none

/-- Fueled worker for `scanAll`. -/
def scanAllF {α : Type} (try1 : Str → Option (α × Nat)) : Nat → Str → List α
  | _, [] => []
  | 0, _ => []
  | fuel + 1, c :: s =>
    match try1 (c :: s) with
    | some (a, n) => a :: scanAllF try1 fuel (s.drop (n - 1))
    | none => scanAllF try1 fuel s

/-- All successive non-overlapping leftmost matches. -/
def scanAll {α : Type} (try1 : Str → Option (α × Nat)) (s : Str) : List α :=
  scanAllF try1 s.length s

/-- Fueled worker for `removeAll`. -/
def removeAllF {α : Type} (try1 : Str → Option (α × Nat)) : Nat → Str → Str
  | _, [] => []
  | 0, s => s
  | fuel + 1, c :: s =>
    match try1 (c :: s) with
    | some (_, n) => removeAllF try1 fuel (s.drop (n - 1))
    | none => c :: removeAllF try1 fuel s

/-- Delete every non-overlapping leftmost match. -/
def removeAll {α : Type} (try1 : Str → Option (α × Nat)) (s : Str) : Str :=
  removeAllF try1 s.length s

/-! ## The response parser (backend/internal/agent/response, `Parse`) -/

/-- The closed mood enumeration of `emotionRegex`:
`\[EMOTION:(idle|thinking|talking|surprised|greeting)\]`. -/
def emotionNames : List Str :=
  ["idle".data, "thinking".data, "talking".data, "surprised".data, "greeting".data]

/-- The full text of the emotion tag for a given mood name. -/
def tagLit (nm : Str) : Str := "[EMOTION:".data ++ nm ++ [']']

/-- Matcher for one of the literal alternatives of `emotionRegex`. -/
def tryEmotionIn : List Str → Str → Option (Str × Nat)
  | [], _ => none
  | nm :: ns, s =>
    if litPre (tagLit nm) s then some (nm, (tagLit nm).length)
    else tryEmotionIn ns s

/-- Matcher for `emotionRegex` at the start of the input. -/
def tryEmotion (s : Str) : Option (Str × Nat) := tryEmotionIn emotionNames s

/-- The literal opening of the suggestions tag. -/
def suggLit : Str := "[SUGGESTIONS:".data

/-- Matcher for `suggestionsRegex` = `\[SUGGESTIONS:([^\]]+)\]` at the start
of the input: after the literal opening, the greedy nonempty run of
non-`]` characters must be closed by `]`. -/
def trySugg (s : Str) : Option (Str × Nat) :=
  if litPre suggLit s then
    let rest := s.drop suggLit.length
    let content := rest.takeWhile (fun c => !(c = ']'))
    if content.length = 0 then none
    else
      match rest.drop content.length with
      | ']' :: _ => some (content, suggLit.length + content.length + 1)
      | _ => none
  else none

/-- Default mood when the emotion tag is absent (`defaultEmotion`). -/
def defaultEmotion : Str := "talking".data

/-- `extractEmotion`: first `emotionRegex` match, else the default. -/
def extractEmotion (t : Str) : Str :=
  match scanFirst tryEmotion t with
  | some (_, nm, _) => nm
  | none => defaultEmotion

/-- The per-part trimming/filtering loop of `extractSuggestions`. -/
def collectSugg : List Str → List Str
  | [] => []
  | p :: ps =>
    let tr := trimSpace p
    if tr = [] then collectSugg ps else tr :: collectSugg ps

/-- `extractSuggestions`: split the first suggestions capture on `|`, trim
each part, drop empties; absence yields the empty list. -/
def extractSuggestions (t : Str) : List Str :=
  match scanFirst trySugg t with
  | some (_, content, _) => collectSugg (splitOnPipe content)
  | none => []

/-- `cleanResponse`: strip all emotion tags, then all suggestions tags, then
trim surrounding whitespace. -/
def cleanResponse (t : Str) : Str :=
  trimSpace (removeAll trySugg (removeAll tryEmotion t))

/-- Parsed response (`response.ChatResponse`). -/
structure ParsedResponse where
  response : Str
  emotion : Str
  suggestions : List Str
deriving DecidableEq, Repr

/-- `response.Parse`: total parser extracting mood and suggestions and
stripping the tags from the body. -/
def parseResponse (t : Str) : ParsedResponse :=
  { response := cleanResponse t
    emotion := extractEmotion t
    suggestions := extractSuggestions t }

/-! ## Catalog (model.Book, InMemoryBookRepository) -/

/-- A catalog item (`model.Book`), restricted to the fields the embedded
code reads. -/
structure Book where
  id : Str
  title : Str
  author : Str
  privateNotes : Str
deriving DecidableEq, Repr

/-- `InMemoryBookRepository.GetByID`: first book whose id matches. -/
def getBook : List Book → Str → Option Book
  | [], _ => none
  | b :: bs, i => if b.id = i then some b else getBook bs i

/-! ## Book reference patterns -/

/-- A parsed `[book::title::id]` reference (`BookAnnotation` in the source;
renamed here). -/
structure BookRef where
  title : Str
  bookId : Str
deriving DecidableEq, Repr

/-- The literal opening of a book reference. -/
def bookLit : Str := "[book::".data

/-- Matcher for the suffix `([^\]]+)\]` shared by the reference pattern:
greedy nonempty run of non-`]` characters closed by `]`. -/
def tryIdPart (rest : Str) : Option (Str × Nat) :=
  let content := rest.takeWhile (fun c => !(c = ']'))
  if content.length = 0 then none
  else
    match rest.drop content.length with
    | ']' :: _ => some (content, content.length + 1)
    | _ => none

/-- Lazy-title worker for `bookAnnotationRegex` = `\[book::(.+?)::([^\]]+)\]`:
grow the title one character at a time (never across `\n`, since `.` does
not match a newline) and at each length accept the shortest title followed
by `::` and a well-formed id part. -/
def annSplit : Str → Str → Option ((Str × Str) × Nat)
  | _, [] => none
  | acc, c :: rest =>
    if c = '\n' then none
    else
      match (if litPre "::".data rest then tryIdPart (rest.drop 2) else none) with
      | some (idc, n) => some ((List.reverse (c :: acc), idc), acc.length + 1 + 2 + n)
      | none => annSplit (c :: acc) rest

/-- Matcher for `bookAnnotationRegex` at the start of the input. -/
def tryAnn (s : Str) : Option ((Str × Str) × Nat) :=
  if litPre bookLit s then
    match annSplit [] (s.drop bookLit.length) with
    | some (ti, n) => some (ti, bookLit.length + n)
    | none => none
  else none

/-- `ExtractBookAnnotations`: all `[book::title::id]` references, in order. -/
def extractBookRefs (t : Str) : List BookRef :=
  (scanAll tryAnn t).map fun ti => { title := ti.1, bookId := ti.2 }

/-- Matcher for `bookIDPattern` = `\[book::[^:]+::(book-\d+)\]` at the start
of the input: colon-free nonempty title, then `::book-`, then a nonempty
digit run closed by `]`; the capture is the full `book-<digits>` id. -/
def tryBookID (s : Str) : Option (Str × Nat) :=
  if litPre bookLit s then
    let rest := s.drop bookLit.length
    let t := rest.takeWhile (fun c => !(c = ':'))
    if t.length = 0 then none
    else
      match rest.drop t.length with
      | ':' :: ':' :: rest2 =>
        if litPre "book-".data rest2 then
          let ds := (rest2.drop 5).takeWhile Char.isDigit
          if ds.length = 0 then none
          else
            match (rest2.drop 5).drop ds.length with
            | ']' :: _ =>
              some ("book-".data ++ ds, bookLit.length + t.length + 2 + 5 + ds.length + 1)
            | _ => none
        else none
      | _ => none
  else none

/-- The agent's `deduplicateStrings`: drop duplicates, keeping the first
occurrence of each string.  `dedupGo` is the loop with its `seen` set. -/
def dedupGo (seen : List Str) : List Str → List Str
  | [] => []
  | s :: rest =>
    if s ∈ seen then dedupGo seen rest else s :: dedupGo (s :: seen) rest

/-- `deduplicateStrings` (part_003). -/
def deduplicateStrings (input : List Str) : List Str := dedupGo [] input

/-- `extractBookIDsFromText` (part_003): all `bookIDPattern` captures with the
source's inline first-occurrence deduplication. -/
def extractBookIDsFromText (t : Str) : List Str :=
  deduplicateStrings (scanAll tryBookID t)

/-! ## Validation pipeline (backend/internal/agent/validation) -/

/-- `validation.ValidationInput`. -/
structure ValidationInput where
  userQuestion : Str
  response : Str
  bookID : Option Str
  language : Str
  previousBooks : List Str
deriving DecidableEq, Repr

/-- `validation.ValidationResult`. -/
structure ValidationResult where
  isValid : Bool
  reason : Str
  corrected : Str
  needsRedo : Bool
deriving DecidableEq, Repr

/-- `validation.OK`. -/
def vOK : ValidationResult :=
  { isValid := true, reason := [], corrected := [], needsRedo := false }

/-- `validation.Fail`. -/
def vFail (reason : Str) : ValidationResult :=
  { isValid := false, reason := reason, corrected := [], needsRedo := true }

/-- `validation.FailWithCorrection`. -/
def vFailWithCorrection (reason corrected : Str) : ValidationResult :=
  { isValid := false, reason := reason, corrected := corrected, needsRedo := false }

/-- The sensitive-pattern list of `PromptLeakValidator`; empty in the public
repository (patterns are a deployment secret). -/
def sensitivePatterns : List (Str → Bool) := []

/-- The sensitive-keyword list of `PromptLeakValidator`; empty in the public
repository. -/
def sensitiveKeywords : List Str := []

/-- The echo-phrase list of `containsPromptInjectionEcho`; empty in the
public repository. -/
def injectionPhrases : List Str := []

/-- `containsPromptInjectionEcho`: a phrase present (case-insensitively) in
both the user question and the response. -/
def containsPromptInjectionEcho (userQuestion response : Str) : Bool :=
  injectionPhrases.any fun phrase =>
    occursIn (lowerL phrase) (lowerL userQuestion) &&
    occursIn (lowerL phrase) (lowerL response)

/-- `PromptLeakValidator.Validate`. -/
def promptLeakValidate (input : ValidationInput) : ValidationResult :=
  if sensitivePatterns.any fun p => p input.response then
    vFail "potential system prompt leak detected".data
  else if sensitiveKeywords.any fun k => occursIn (lowerL k) (lowerL input.response) then
    vFail "potential internal information leak detected".data
  else if containsPromptInjectionEcho input.userQuestion input.response then
    vFail "prompt injection attempt echoed in response".data
  else vOK

/-- The per-reference loop of `BookAnnotationValidator.Validate`: first
nonexistent id or title mismatch fails. -/
def checkRefs (books : List Book) : List BookRef → ValidationResult
  | [] => vOK
  | r :: rest =>
    match getBook books r.bookId with
    | none => vFail "book ID does not exist".data
    | some b =>
      if !(b.title = r.title) then vFail "title mismatch".data
      else checkRefs books rest

/-- `BookAnnotationValidator.Validate`: with no reference in the response,
fail iff a nonempty selected book id resolves in the catalog; otherwise
check every reference. -/
def bookAnnotationValidate (books : List Book) (input : ValidationInput) : ValidationResult :=
  let refs := extractBookRefs input.response
  if refs = [] then
    match input.bookID with
    | some bid =>
      if !(bid = []) then
        match getBook books bid with
        | some _ => vFail "selected book not mentioned".data
        | none => vOK
      else vOK
    | none => vOK
  else checkRefs books refs

/-- The fallback apology strings (`prompt.FallbackMessageJa/En`). -/
def fallbackMessageJa : Str := "うーん、ちょっと混乱しちゃった。もう一度聞いてもらえる？".data

/-- English fallback apology string. -/
def fallbackMessageEn : Str := "Hmm, I got a bit confused. Could you ask me again?".data

/-- `getFallbackMessage`. -/
def getFallbackMessage (language : Str) : Str :=
  if language = "ja".data then fallbackMessageJa else fallbackMessageEn

/-- `ResponseCorrector.Generate`.  The assist-tier LLM call is an oracle
`llm : Option Str` (`none` = API error, `some` = returned text); the
correction-prompt construction only feeds that oracle and does not affect
the returned value, so it is not reproduced here.  On API error the
function returns the fallback message TOGETHER WITH the error; on an empty
result it returns the fallback message without error. -/
def correctorGenerate (question : Str) (bookID : Option Str) (language : Str)
    (llm : Option Str) : Str × Bool :=
  match llm with
  | none => (getFallbackMessage language, true)
  | some result =>
    if result = [] then (getFallbackMessage language, false)
    else (result, false)

/-- The validator loop of `Pipeline.Validate`: on the first failing
validator use its ready-made correction if any, else if it requests
regeneration call the corrector; a failure carrying neither falls through
to the next validator; if the loop ends, the original response is returned
unmodified.  The second component is the Go `error` return. -/
def runValidators (input : ValidationInput) (llm : Option Str) :
    List (ValidationInput → ValidationResult) → Str × Bool
  | [] => (input.response, false)
  | v :: vs =>
    let r := v input
    if r.isValid then runValidators input llm vs
    else if !(r.corrected = []) then (r.corrected, false)
    else if r.needsRedo then
      correctorGenerate input.userQuestion input.bookID input.language llm
    else runValidators input llm vs

/-- `Pipeline.Validate` with the validator chain installed by
`NewBookshelfAgent`: the prompt-leak validator first, then the book
reference validator. -/
def pipelineValidate (books : List Book) (input : ValidationInput)
    (llm : Option Str) : Str × Bool :=
  runValidators input llm [promptLeakValidate, bookAnnotationValidate books]

/-! ## The post-generation phase of `BookshelfAgent.Chat` (part_003) -/

/-- The recommendation-memory merge performed by `Chat`: append the newly
extracted ids and deduplicate keeping first occurrences. -/
def mergeRecommended (previousBooks newIDs : List Str) : List Str :=
  deduplicateStrings (previousBooks ++ newIDs)

/-- The part of `BookshelfAgent.Chat` that follows model generation: run the
validation pipeline on the parsed response; on a pipeline error fall back
to the parsed response itself; extract book ids from the chosen text and,
if any, merge them into the conversation's recommendation memory; re-parse
the chosen text to clean remaining tags.  Returns the final response text
and the recommendation-memory entry for the conversation. -/
def chatPostProcess (books : List Book) (message parsedResp : Str)
    (bookID : Option Str) (language : Str) (previousBooks : List Str)
    (llm : Option Str) : Str × List Str :=
  let v := pipelineValidate books
    { userQuestion := message, response := parsedResp, bookID := bookID,
      language := language, previousBooks := previousBooks } llm
  let validated := if v.2 then parsedResp else v.1
  let newIDs := extractBookIDsFromText validated
  let recommended := if !(newIDs = []) then mergeRecommended previousBooks newIDs
                     else previousBooks
  ((parseResponse validated).response, recommended)

/-! ## Session store and compaction (part_003 with the ADK in-memory
session service modelled as an association map) -/

/-- `RecentTurnsToKeep` (part_003): number of recent turns preserved. -/
def RecentTurnsToKeep : Nat := 3

/-- `RecentConversationStateKey`. -/
def RecentConversationStateKey : Str := "recent_conversation".data

/-- A session event: optional content with a role and its text parts. -/
structure SessEvent where
  content : Option (Str × List Str)
deriving DecidableEq, Repr

/-- Session data held by the in-memory session service: the ordered event
list and the small state map. -/
structure SessionData where
  events : List SessEvent
  state : List (Str × Str)
deriving DecidableEq, Repr

/-- The session service's session map, keyed by session id (the application
and user names are fixed constants in the source). -/
abbrev SvcMap := List (Str × SessionData)

/-- Session-service `Get`. -/
def svcGet : SvcMap → Str → Option SessionData
  | [], _ => none
  | (k, d) :: rest, sid => if k = sid then some d else svcGet rest sid

/-- Session-service `Delete`. -/
def svcDelete : SvcMap → Str → SvcMap
  | [], _ => []
  | (k, d) :: rest, sid =>
    if k = sid then svcDelete rest sid else (k, d) :: svcDelete rest sid

/-- Session-service `Create` with an explicit session id and initial state. -/
def svcCreate (svc : SvcMap) (sid : Str) (d : SessionData) : SvcMap :=
  (sid, d) :: svc

/-- The 500-character truncation of `extractRecentConversation`. -/
def truncateEvt (t : Str) : Str :=
  if t.length > 500 then t.take 500 ++ "...".data else t

/-- The per-event part collection of `extractRecentConversation`: each
nonempty text part becomes a line `Role: text`. -/
def collectEventLines : List SessEvent → List Str
  | [] => []
  | e :: es =>
    match e.content with
    | none => collectEventLines es
    | some (role, parts) =>
      (parts.filterMap fun t =>
        if !(t = []) then
          some ((if role = "model".data then "Assistant".data else "User".data)
            ++ ": ".data ++ truncateEvt t)
        else none) ++ collectEventLines es

/-- `extractRecentConversation`: render the last `count` events as a flat
transcript headed by `[Recent conversation]`. -/
def extractRecentConversation (events : List SessEvent) (count : Nat) : Str :=
  if events.length = 0 then []
  else
    let start := if events.length > count then events.length - count else 0
    let lines := collectEventLines (events.drop start)
    if lines = [] then []
    else "[Recent conversation]\n".data ++ joinStrings ['\n'] lines

/-- `compactSessionHistory`: if the session's event count has reached
`2 × RecentTurnsToKeep`, render the most recent `2 × RecentTurnsToKeep`
events, delete the session and recreate it under the same session id with
the transcript as its only state value.  Returns the updated service map,
the session id handed back to `Chat`, and the Go error flag. -/
def compactSessionHistory (svc : SvcMap) (sid : Str) : SvcMap × Str × Bool :=
  match svcGet svc sid with
  | none => (svc, sid, true)
  | some sess =>
    let eventCount := sess.events.length
    let maxEvents := RecentTurnsToKeep * 2
    if eventCount < maxEvents then (svc, sid, false)
    else
      let recent := extractRecentConversation sess.events (RecentTurnsToKeep * 2)
      let svc₁ := svcDelete svc sid
      let initialState : List (Str × Str) :=
        if !(recent = []) then [(RecentConversationStateKey, recent)] else []
      (svcCreate svc₁ sid { events := [], state := initialState }, sid, false)

/-! ## Chat HTTP handler (handler package: `HandleChat`, `chatWithRetry`,
`isRateLimitError`) -/

/-- Errors surfaced by the agent call, as the handler distinguishes them. -/
inductive GoError where
  | canceled
  | deadlineExceeded
  | resourceExhausted
  | generic (msg : Str)
deriving DecidableEq, Repr

/-- The `Error()` string of each modelled error. -/
def errString : GoError → Str
  | .canceled => "context canceled".data
  | .deadlineExceeded => "context deadline exceeded".data
  | .resourceExhausted => "rpc error: code = ResourceExhausted desc = quota exceeded".data
  | .generic m => m

/-- `isRateLimitError`: a gRPC `ResourceExhausted` status, or an error
string containing one of the quota markers. -/
def isRateLimitError (e : GoError) : Bool :=
  match e with
  | .resourceExhausted => true
  | _ =>
    occursIn "ResourceExhausted".data (errString e) ||
    occursIn "429".data (errString e) ||
    occursIn "rate limit".data (errString e) ||
    occursIn "quota".data (errString e)

/-- `MaxRetries` (handler): maximum number of retries after the first
attempt. -/
def MaxRetries : Nat := 2

/-- `MaxMessageLength` (handler). -/
def MaxMessageLength : Nat := 250

/-- The agent's reply as the handler consumes it. -/
structure ChatResponseE where
  response : Str
  emotion : Str
  suggestions : List Str
deriving DecidableEq, Repr

/-- The retry loop of `chatWithRetry`, with per-attempt outcomes supplied by
the oracle `attempts`.  Returns the result and the number of agent calls
made.  Every error except caller cancellation is retried until the attempt
budget (`MaxRetries + 1` attempts) is exhausted; the last error is
returned. -/
def cwrGo (attempts : Nat → Except GoError ChatResponseE) :
    Nat → Nat → GoError → Except GoError ChatResponseE × Nat
  | 0, attempt, lastErr => (.error lastErr, attempt)
  | fuel + 1, attempt, lastErr =>
    match attempts attempt with
    | .ok r => (.ok r, attempt + 1)
    | .error e =>
      if e = .canceled then (.error e, attempt + 1)
      else cwrGo attempts fuel (attempt + 1) e

/-- `chatWithRetry`. -/
def chatWithRetry (attempts : Nat → Except GoError ChatResponseE) :
    Except GoError ChatResponseE × Nat :=
  cwrGo attempts (MaxRetries + 1) 0 (.generic [])

/-- The observable outcome of `HandleChat`: HTTP status, the JSON body
fields the tests care about, and effect counters (agent chat calls made,
sessions created). -/
structure HandlerOutcome where
  status : Nat
  bodyResponse : Str
  bodyEmotion : Str
  bodySuggestions : List Str
  bodySessionId : Str
  bodyCode : Str
  modelCalls : Nat
  sessionsCreated : Nat
deriving DecidableEq, Repr

/-- An error outcome with the given status and machine-readable code. -/
def errOutcome (status : Nat) (code : Str) : HandlerOutcome :=
  { status := status, bodyResponse := [], bodyEmotion := [],
    bodySuggestions := [], bodySessionId := [], bodyCode := code,
    modelCalls := 0, sessionsCreated := 0 }

/-- The canned refusal text returned on an injection match. -/
def cannedInjectionResponse : Str :=
  "その質問にはお答えできないよ。本についておしゃべりしよう！".data

/-- The two generic follow-up suggestions of the canned refusal reply. -/
def cannedInjectionSuggestions : List Str :=
  ["おすすめの本は？".data, "最近読んだ本は？".data]

/-- The chat request body (`ChatRequest`). -/
structure ChatRequestE where
  message : Str
  bookId : Option Str
  sessionId : Option Str
deriving DecidableEq, Repr

/-- `HandleChat`.  `isInj` is the injection-signature matcher
(`isInjectionAttempt`; its pattern library is a deployment secret omitted
from the public repository, so it is a parameter here), `normalize` the
Unicode NFC normalizer, `agentAvailable` whether agent initialization
succeeded, `newSessionId` the id minted by `CreateSession`, and `attempts`
the per-attempt agent outcomes consumed by `chatWithRetry`. -/
def handleChat (isInj : Str → Bool) (normalize : Str → Str) (books : List Book)
    (agentAvailable : Bool) (newSessionId : Str)
    (attempts : Nat → Except GoError ChatResponseE) (req : ChatRequestE) :
    HandlerOutcome :=
  if req.message = [] then errOutcome 400 "INVALID_REQUEST".data
  else if req.message.length > MaxMessageLength then
    errOutcome 400 "MESSAGE_TOO_LONG".data
  else
    let msg := normalize req.message
    if isInj msg then
      { status := 200, bodyResponse := cannedInjectionResponse,
        bodyEmotion := "idle".data,
        bodySuggestions := cannedInjectionSuggestions,
        bodySessionId := [], bodyCode := [], modelCalls := 0,
        sessionsCreated := 0 }
    else if (match req.bookId with
             | some b => !(b = []) && (getBook books b).isNone
             | none => false) then
      errOutcome 400 "BOOK_NOT_FOUND".data
    else if !agentAvailable then errOutcome 503 "SERVICE_UNAVAILABLE".data
    else
      let sidCreated : Str × Nat :=
        match req.sessionId with
        | some s => if !(s = []) then (s, 0) else (newSessionId, 1)
        | none => (newSessionId, 1)
      match chatWithRetry attempts with
      | (.ok resp, n) =>
        { status := 200, bodyResponse := resp.response,
          bodyEmotion := resp.emotion, bodySuggestions := resp.suggestions,
          bodySessionId := sidCreated.1, bodyCode := [], modelCalls := n,
          sessionsCreated := sidCreated.2 }
      | (.error e, n) =>
        if e = .deadlineExceeded then
          { errOutcome 504 "TIMEOUT".data with
              modelCalls := n, sessionsCreated := sidCreated.2 }
        else if isRateLimitError e then
          { status := 429,
            bodyResponse :=
              "I've been talking too much today! Please come back in a bit.".data,
            bodyEmotion := "surprised".data, bodySuggestions := [],
            bodySessionId := [], bodyCode := "GEMINI_RATE_LIMITED".data,
            modelCalls := n, sessionsCreated := sidCreated.2 }
        else
          { errOutcome 500 "INTERNAL_ERROR".data with
              modelCalls := n, sessionsCreated := sidCreated.2 }

/-! ## Rate limiting (backend/internal/middleware/ratelimit.go) -/

/-- `DailyQuota` state.  Times are integers (an abstract clock). -/
structure DailyQuota where
  count : Int
  limit : Int
  resetAt : Int
deriving DecidableEq, Repr

/-- `DailyQuota.Allow` at clock time `now`; `nextMid` is the value
`nextMidnightPT()` would produce for the reset. -/
def dailyQuotaAllow (now nextMid : Int) (q : DailyQuota) : Bool × DailyQuota :=
  let q := if now > q.resetAt then { q with count := 0, resetAt := nextMid } else q
  if q.count ≥ q.limit then (false, q)
  else (true, { q with count := q.count + 1 })

/-- Modelled from the spec: the per-source token bucket of
`golang.org/x/time/rate` (an external library): `tokens` up to `burst`,
refilled at `r` tokens per clock unit since `last`; `Allow` consumes one
token when available.  Token amounts are integer-scaled. -/
structure TokenBucket where
  tokens : Int
  last : Int
deriving DecidableEq, Repr

/-- Token-bucket `Allow`. -/
def bucketAllow (r : Int) (burst : Int) (now : Int) (tb : TokenBucket) :
    Bool × TokenBucket :=
  let tokens := min burst (tb.tokens + r * (now - tb.last))
  if tokens ≥ 1 then (true, { tokens := tokens - 1, last := now })
  else (false, { tokens := tokens, last := now })

/-- The two-tier rate-limiter state: the global daily quota and the
per-source bucket map. -/
structure RateState where
  quota : DailyQuota
  buckets : List (Str × TokenBucket)
deriving DecidableEq, Repr

/-- Per-source bucket lookup (`IPRateLimiter.GetLimiter`): a fresh limiter
starts with a full bucket. -/
def getBucket (burst : Int) (now : Int) : List (Str × TokenBucket) → Str → TokenBucket
  | [], _ => { tokens := burst, last := now }
  | (k, tb) :: rest, ip => if k = ip then tb else getBucket burst now rest ip

/-- Update the per-source bucket map. -/
def putBucket (buckets : List (Str × TokenBucket)) (ip : Str) (tb : TokenBucket) :
    List (Str × TokenBucket) :=
  match buckets with
  | [] => [(ip, tb)]
  | (k, b) :: rest => if k = ip then (ip, tb) :: rest else (k, b) :: putBucket rest ip tb

/-- Modelled from the spec: the body of `RateLimitMiddleware` is omitted
from the public repository; per its documentation comment and the spec, the
global daily quota is checked first (rejecting with 429 when exhausted) and
only then the per-source token bucket (rejecting with 429 when empty). -/
def middlewareAllow (r burst : Int) (now nextMid : Int) (ip : Str)
    (st : RateState) : Bool × RateState :=
  let dq := dailyQuotaAllow now nextMid st.quota
  if !dq.1 then (false, { st with quota := dq.2 })
  else
    let tb := getBucket burst now st.buckets ip
    let ba := bucketAllow r burst now tb
    (ba.1, { quota := dq.2, buckets := putBucket st.buckets ip ba.2 })

/-- Issue `n` successive requests from one source at the same clock time. -/
def runRequests (r burst : Int) (now nextMid : Int) (ip : Str) :
    Nat → RateState → List Bool × RateState
  | 0, st => ([], st)
  | n + 1, st =>
    let step := middlewareAllow r burst now nextMid ip st
    let rest := runRequests r burst now nextMid ip n step.2
    (step.1 :: rest.1, rest.2)

/-! ## Prompt context builder (prompt package, `BuildMessageContext`) -/

/-- `prompt.ContextOptions`. -/
structure ContextOptions where
  language : Str
  selectedBook : Option Book
  previousBooks : List Str
  recentConversation : Str
deriving DecidableEq, Repr

/-- The two-newline separator used between injected segments. -/
def nl2 : Str := ['\n', '\n']

/-- `BuildLanguageInstruction`: the `ja` directive, or the English directive
for `en` and any other value. -/
def buildLanguageInstruction (language : Str) : Str :=
  if language = "ja".data then
    "[言語指定: 日本語で回答してください。サジェスチョン(SUGGESTIONS)も日本語で出力してください。日本語の書籍(language: ja)のみを紹介してください。]".data
  else if language = "en".data then
    "[Language instruction: Please respond in English. Output suggestions (SUGGESTIONS) in English as well. Only recommend English books (language: en).]".data
  else
    "[Language instruction: Please respond in English. Output suggestions (SUGGESTIONS) in English as well. Only recommend English books (language: en).]".data

/-- The selected-book context line of `BuildMessageContext`. -/
def selectedBookContext (b : Book) : Str :=
  "[選択中の本: 「".data ++ b.title ++ "」（".data ++ b.author ++
    "著）ID: ".data ++ b.id ++ [']']

/-- The already-recommended exclusion notice of `BuildMessageContext`. -/
def exclusionNotice (language : Str) (previousBooks : List Str) : Str :=
  if language = "ja".data then
    "[重要: 以下の本は既にこの会話で紹介済みです。別の本をおすすめしてください: ".data ++
      joinStrings ", ".data previousBooks ++ [']']
  else
    "[IMPORTANT: The following books were already recommended in this conversation. Please recommend different books: ".data ++
      joinStrings ", ".data previousBooks ++ [']']

/-- `BuildMessageContext`: successively prepend the language directive, the
selected-book context, the recent-conversation summary and the exclusion
notice to the user message. -/
def buildMessageContext (message : Str) (opts : ContextOptions) : Str :=
  let result := message
  let result := buildLanguageInstruction opts.language ++ nl2 ++ result
  let result :=
    match opts.selectedBook with
    | some b => selectedBookContext b ++ nl2 ++ result
    | none => result
  let result :=
    if !(opts.recentConversation = []) then opts.recentConversation ++ nl2 ++ result
    else result
  let result :=
    if !(opts.previousBooks = []) then
      exclusionNotice opts.language opts.previousBooks ++ nl2 ++ result
    else result
  result

/-! ## Toolkit lemmas about `litPre`, `occursIn` and the scanners -/

theorem litPre_self_append : ∀ (p t : Str), litPre p (p ++ t) = true
  | [], _ => rfl
  | a :: p, t => by simp [litPre, litPre_self_append p t]

theorem litPre_head {a : Char} {p s : Str} (h : litPre (a :: p) s = true) :
    s.head? = some a := by
  cases s with
  | nil => simp [litPre] at h
  | cons b s => simp [litPre] at h; simp [h.1]

theorem litPre_length : ∀ {p s : Str}, litPre p s = true → p.length ≤ s.length
  | [], _, _ => Nat.zero_le _
  | a :: p, b :: s, h => by
    simp only [litPre, Bool.and_eq_true] at h
    simpa using Nat.succ_le_succ (litPre_length h.2)

theorem litPre_get : ∀ {p s : Str}, litPre p s = true →
    ∀ i, i < p.length → s[i]? = p[i]?
  | a :: p, b :: s, h, 0, _ => by
    simp only [litPre, Bool.and_eq_true, decide_eq_true_eq] at h
    simp [h.1]
  | a :: p, b :: s, h, i + 1, hi => by
    simp only [litPre, Bool.and_eq_true] at h
    simpa using litPre_get h.2 i (by simpa using hi)

theorem litPre_append_left : ∀ (p q : Str) (s : Str), p.length ≤ q.length →
    litPre p (q ++ s) = litPre p q
  | [], _, _, _ => rfl
  | a :: p, [], s, h => by simp at h
  | a :: p, b :: q, s, h => by
    show (decide (a = b) && litPre p (q ++ s)) = (decide (a = b) && litPre p q)
    rw [litPre_append_left p q s (by simpa using h)]

theorem litPre_of_append : ∀ {p q s : Str}, litPre (p ++ q) s = true →
    litPre p s = true
  | [], _, _, _ => rfl
  | a :: p, q, b :: s, h => by
    simp only [List.cons_append, litPre, Bool.and_eq_true] at h ⊢
    exact ⟨h.1, litPre_of_append h.2⟩

theorem occursIn_false_litPre : ∀ {p : Str} (s : Str), occursIn p s = false →
    ∀ q, litPre p (s.drop q) = false
  | p, [], h, q => by simpa [occursIn] using h
  | p, c :: s, h, 0 => by
    simp only [occursIn, Bool.or_eq_false_iff] at h
    simpa using h.1
  | p, c :: s, h, q + 1 => by
    simp only [occursIn, Bool.or_eq_false_iff] at h
    simpa using occursIn_false_litPre s h.2 q

theorem occursIn_of_litPre_drop {p s : Str} {q : Nat}
    (h : litPre p (s.drop q) = true) : occursIn p s = true := by
  by_contra hc
  have := occursIn_false_litPre s (by simpa using Bool.not_eq_true _ ▸ hc) q
  rw [h] at this
  exact Bool.true_eq_false.mp this

theorem litPre_cross {p d w : Str} (h : litPre p (d ++ w) = true)
    (hlt : d.length < p.length) : p[d.length]? = w[0]? := by
  have hg := litPre_get h d.length hlt
  rw [List.getElem?_append_right (Nat.le_refl _)] at hg
  simpa using hg.symm

theorem litPre_false_of_get {p s : Str} {i : Nat} (hi : i < p.length)
    (hne : ¬ p[i]? = s[i]?) : litPre p s = false := by
  cases h : litPre p s with
  | false => rfl
  | true => exact absurd (litPre_get h i hi).symm hne

theorem scanFirst_none {α : Type} (try1 : Str → Option (α × Nat)) :
    ∀ (s : Str), (∀ q, try1 (s.drop q) = none) → scanFirst try1 s = none
  | [], h => by
    have h0 : try1 [] = none := by simpa using h 0
    simp [scanFirst, h0]
  | c :: s, h => by
    have h0 : try1 (c :: s) = none := by simpa using h 0
    have hrec := scanFirst_none try1 s fun q => by simpa using h (q + 1)
    simp [scanFirst, h0, hrec]

theorem scanFirst_append {α : Type} (try1 : Str → Option (α × Nat)) :
    ∀ (x s : Str), (∀ q, q < x.length → try1 (x.drop q ++ s) = none) →
    scanFirst try1 (x ++ s) =
      (scanFirst try1 s).map fun r => (x ++ r.1, r.2.1, r.2.2)
  | [], s, _ => by
    cases hs : scanFirst try1 s with
    | none => simp [hs]
    | some r => simp [hs]
  | c :: x, s, h => by
    have h0 : try1 (c :: (x ++ s)) = none := by
      simpa [List.cons_append] using h 0 (Nat.succ_pos _)
    have hrec := scanFirst_append try1 x s fun q hq => by
      simpa using h (q + 1) (by simpa using Nat.succ_lt_succ hq)
    cases hs : scanFirst try1 s with
    | none =>
      rw [hs] at hrec
      simp [List.cons_append, scanFirst, h0, hrec]
    | some r =>
      rw [hs] at hrec
      simp [List.cons_append, scanFirst, h0, hrec]

theorem removeAllF_congr {α : Type} (try1 : Str → Option (α × Nat)) :
    ∀ (f₁ : Nat) (s : Str) (f₂ : Nat), s.length ≤ f₁ → s.length ≤ f₂ →
    removeAllF try1 f₁ s = removeAllF try1 f₂ s
  | f₁, [], f₂, _, _ => by cases f₁ <;> cases f₂ <;> rfl
  | 0, c :: s, _, h₁, _ => by simp at h₁
  | f₁ + 1, c :: s, 0, _, h₂ => by simp at h₂
  | f₁ + 1, c :: s, f₂ + 1, h₁, h₂ => by
    have h₁' : s.length ≤ f₁ := by simpa using h₁
    have h₂' : s.length ≤ f₂ := by simpa using h₂
    simp only [removeAllF]
    cases ht : try1 (c :: s) with
    | none =>
      exact congrArg _ (removeAllF_congr try1 f₁ s f₂ h₁' h₂')
    | some r =>
      obtain ⟨a, n⟩ := r
      have hd : (s.drop (n - 1)).length ≤ s.length := by
        rw [List.length_drop]; omega
      exact removeAllF_congr try1 f₁ (s.drop (n - 1)) f₂
        (Nat.le_trans hd h₁') (Nat.le_trans hd h₂')

theorem removeAllF_eq_self {α : Type} (try1 : Str → Option (α × Nat)) :
    ∀ (fuel : Nat) (s : Str), s.length ≤ fuel →
    (∀ q, try1 (s.drop q) = none) → removeAllF try1 fuel s = s
  | fuel, [], _, _ => by cases fuel <;> rfl
  | 0, c :: s, h, _ => by simp at h
  | fuel + 1, c :: s, h, hq => by
    have h0 : try1 (c :: s) = none := by simpa using hq 0
    have hrec := removeAllF_eq_self try1 fuel s (by simpa using h)
      fun q => by simpa using hq (q + 1)
    simp [removeAllF, h0, hrec]

theorem removeAll_eq_self {α : Type} (try1 : Str → Option (α × Nat)) (s : Str)
    (h : ∀ q, try1 (s.drop q) = none) : removeAll try1 s = s :=
  removeAllF_eq_self try1 s.length s (Nat.le_refl _) h

theorem removeAllF_append {α : Type} (try1 : Str → Option (α × Nat)) :
    ∀ (x : Str) (fuel : Nat) (s : Str), (x ++ s).length ≤ fuel →
    (∀ q, q < x.length → try1 (x.drop q ++ s) = none) →
    removeAllF try1 fuel (x ++ s) = x ++ removeAllF try1 (fuel - x.length) s
  | [], fuel, s, _, _ => by simp
  | c :: x, 0, s, hlen, _ => by simp at hlen
  | c :: x, fuel + 1, s, hlen, h => by
    have h0 : try1 (c :: (x ++ s)) = none := by
      simpa [List.cons_append] using h 0 (Nat.succ_pos _)
    have hrec := removeAllF_append try1 x fuel s
      (by simpa [List.cons_append] using hlen)
      (fun q hq => by simpa using h (q + 1) (by simpa using Nat.succ_lt_succ hq))
    simp [List.cons_append, removeAllF, h0, hrec, Nat.succ_sub_one]

theorem removeAll_append {α : Type} (try1 : Str → Option (α × Nat))
    (x s : Str) (h : ∀ q, q < x.length → try1 (x.drop q ++ s) = none) :
    removeAll try1 (x ++ s) = x ++ removeAll try1 s := by
  unfold removeAll
  rw [removeAllF_append try1 x (x ++ s).length s (Nat.le_refl _) h]
  congr 1
  exact removeAllF_congr try1 ((x ++ s).length - x.length) s s.length
    (by simp) (Nat.le_refl _)

theorem removeAll_consume {α : Type} (try1 : Str → Option (α × Nat)) :
    ∀ (s : Str) {a : α} {n : Nat}, try1 s = some (a, n) → 1 ≤ n →
    removeAll try1 s = removeAll try1 (s.drop n)
  | [], a, n, h, hn => by simp [removeAll]
  | c :: s, a, 0, h, hn => by omega
  | c :: s, a, m + 1, h, hn => by
    show removeAllF try1 (s.length + 1) (c :: s) = _
    simp only [removeAllF, h]
    have hd : (s.drop m).length ≤ s.length := by
      rw [List.length_drop]; omega
    have he : (c :: s).drop (m + 1) = s.drop m := by simp
    rw [he]
    show removeAllF try1 s.length (s.drop (m + 1 - 1)) = _
    have he2 : m + 1 - 1 = m := rfl
    rw [he2]
    exact removeAllF_congr try1 s.length (s.drop m) (s.drop m).length
      hd (Nat.le_refl _)

theorem scanAllF_shape {α : Type} (try1 : Str → Option (α × Nat)) :
    ∀ (fuel : Nat) (s : Str) (a : α), a ∈ scanAllF try1 fuel s →
    ∃ t n, try1 t = some (a, n)
  | fuel, [], a, h => by cases fuel <;> simp [scanAllF] at h
  | 0, c :: s, a, h => by simp [scanAllF] at h
  | fuel + 1, c :: s, a, h => by
    revert h
    simp only [scanAllF]
    cases ht : try1 (c :: s) with
    | none => exact fun h => scanAllF_shape try1 fuel s a h
    | some r =>
      obtain ⟨b, n⟩ := r
      intro h
      rcases List.mem_cons.mp h with h | h
      · exact ⟨c :: s, n, h ▸ ht⟩
      · exact scanAllF_shape try1 fuel (s.drop (n - 1)) a h

theorem scanAll_shape {α : Type} (try1 : Str → Option (α × Nat)) (s : Str)
    (a : α) (h : a ∈ scanAll try1 s) : ∃ t n, try1 t = some (a, n) :=
  scanAllF_shape try1 s.length s a h

/-! ## Deduplication lemmas (for the recommendation-memory merge) -/

theorem dedupGo_seen_congr : ∀ (l : List Str) (s₁ s₂ : List Str),
    (∀ x, x ∈ s₁ ↔ x ∈ s₂) → dedupGo s₁ l = dedupGo s₂ l
  | [], _, _, _ => rfl
  | x :: xs, s₁, s₂, h => by
    by_cases hx : x ∈ s₁
    · simp [dedupGo, hx, (h x).mp hx, dedupGo_seen_congr xs s₁ s₂ h]
    · have hx₂ : x ∉ s₂ := fun hc => hx ((h x).mpr hc)
      simp only [dedupGo, if_neg hx, if_neg hx₂]
      rw [dedupGo_seen_congr xs (x :: s₁) (x :: s₂)
        (fun y => by simp [h y])]

theorem dedupGo_insert : ∀ (l : List Str) (seen : List Str) (a : Str),
    dedupGo (a :: seen) l = dedupGo seen (l.filter fun b => !(b = a))
  | [], _, _ => rfl
  | x :: xs, seen, a => by
    by_cases hxa : x = a
    · subst hxa
      have hl : dedupGo (x :: seen) (x :: xs) = dedupGo (x :: seen) xs := by
        simp [dedupGo]
      have hr : (x :: xs).filter (fun b => !(b = x)) =
          xs.filter (fun b => !(b = x)) := by simp
      rw [hl, hr, dedupGo_insert xs seen x]
    · have hr : (x :: xs).filter (fun b => !(b = a)) =
          x :: xs.filter (fun b => !(b = a)) := by simp [hxa]
      by_cases hxs : x ∈ seen
      · have hmem : x ∈ a :: seen := List.mem_cons_of_mem _ hxs
        have hl : dedupGo (a :: seen) (x :: xs) = dedupGo (a :: seen) xs := by
          simp [dedupGo, hmem]
        have hstep : dedupGo seen (x :: xs.filter fun b => !(b = a)) =
            dedupGo seen (xs.filter fun b => !(b = a)) := by
          simp [dedupGo, hxs]
        rw [hl, hr, hstep, dedupGo_insert xs seen a]
      · have hnx : x ∉ a :: seen := by simp [List.mem_cons, hxa, hxs]
        have hl : dedupGo (a :: seen) (x :: xs) =
            x :: dedupGo (x :: a :: seen) xs := by simp [dedupGo, hnx]
        have hstep : dedupGo seen (x :: xs.filter fun b => !(b = a)) =
            x :: dedupGo (x :: seen) (xs.filter fun b => !(b = a)) := by
          simp [dedupGo, hxs]
        rw [hl, hr, hstep]
        congr 1
        rw [dedupGo_seen_congr xs (x :: a :: seen) (a :: x :: seen)
          (fun y => by simp only [List.mem_cons]; tauto)]
        exact dedupGo_insert xs (x :: seen) a

theorem dedupGo_count : ∀ (l : List Str) (seen : List Str) (a : Str),
    (dedupGo seen l).count a = if a ∈ l ∧ a ∉ seen then 1 else 0
  | [], seen, a => by simp [dedupGo]
  | x :: xs, seen, a => by
    by_cases hxs : x ∈ seen
    · rw [show dedupGo seen (x :: xs) = dedupGo seen xs from by
        simp [dedupGo, hxs]]
      rw [dedupGo_count xs seen a]
      by_cases hax : a = x
      · subst hax
        simp [hxs]
      · simp [List.mem_cons, hax]
    · rw [show dedupGo seen (x :: xs) = x :: dedupGo (x :: seen) xs from by
        simp [dedupGo, hxs]]
      rw [List.count_cons, dedupGo_count xs (x :: seen) a]
      by_cases hax : a = x
      · subst hax
        simp [hxs]
      · have h1 : (x == a) = false := by simp [Ne.symm hax]
        simp [h1, List.mem_cons, hax]

theorem dedupGo_sublist : ∀ (l : List Str) (seen : List Str),
    (dedupGo seen l).Sublist l
  | [], _ => List.Sublist.refl _
  | x :: xs, seen => by
    by_cases hxs : x ∈ seen
    · rw [show dedupGo seen (x :: xs) = dedupGo seen xs from by
        simp [dedupGo, hxs]]
      exact (dedupGo_sublist xs seen).cons x
    · rw [show dedupGo seen (x :: xs) = x :: dedupGo (x :: seen) xs from by
        simp [dedupGo, hxs]]
      exact (dedupGo_sublist xs (x :: seen)).cons₂ x

theorem dedupGo_mem : ∀ (l : List Str) (seen : List Str) (a : Str),
    a ∈ dedupGo seen l → a ∈ l
  | [], _, _, h => by simp [dedupGo] at h
  | x :: xs, seen, a, h => by
    by_cases hxs : x ∈ seen
    · rw [show dedupGo seen (x :: xs) = dedupGo seen xs from by
        simp [dedupGo, hxs]] at h
      exact List.mem_cons_of_mem _ (dedupGo_mem xs seen a h)
    · rw [show dedupGo seen (x :: xs) = x :: dedupGo (x :: seen) xs from by
        simp [dedupGo, hxs]] at h
      rcases List.mem_cons.mp h with h | h
      · exact h ▸ List.mem_cons_self _ _
      · exact List.mem_cons_of_mem _ (dedupGo_mem xs (x :: seen) a h)

theorem dedupGo_pair_congr : ∀ (pre : List Str) (seen : List Str)
    (l₁ l₂ : List Str), (∀ s, dedupGo s l₁ = dedupGo s l₂) →
    dedupGo seen (pre ++ l₁) = dedupGo seen (pre ++ l₂)
  | [], seen, l₁, l₂, h => h seen
  | x :: pre, seen, l₁, l₂, h => by
    by_cases hxs : x ∈ seen
    · simp only [List.cons_append, dedupGo, if_pos hxs]
      exact dedupGo_pair_congr pre seen l₁ l₂ h
    · simp only [List.cons_append, dedupGo, if_neg hxs]
      exact congrArg (x :: ·) (dedupGo_pair_congr pre (x :: seen) l₁ l₂ h)

/-! ## Claim C3: reference-integrity validator failure condition -/

theorem checkRefs_invalid_iff (books : List Book) : ∀ (refs : List BookRef),
    (checkRefs books refs).isValid = false ↔
      ∃ r ∈ refs, getBook books r.bookId = none ∨
        ∃ b, getBook books r.bookId = some b ∧ ¬ b.title = r.title
  | [] => by simp [checkRefs, vOK]
  | r :: rest => by
    cases hg : getBook books r.bookId with
    | none =>
      simp only [checkRefs, hg]
      constructor
      · intro _
        exact ⟨r, List.mem_cons_self _ _, Or.inl hg⟩
      · intro _
        rfl
    | some b =>
      by_cases ht : b.title = r.title
      · have hstep : checkRefs books (r :: rest) = checkRefs books rest := by
          simp [checkRefs, hg, ht]
        rw [hstep, checkRefs_invalid_iff books rest]
        constructor
        · rintro ⟨r', hr', hbad⟩
          exact ⟨r', List.mem_cons_of_mem _ hr', hbad⟩
        · rintro ⟨r', hr', hbad⟩
          rcases List.mem_cons.mp hr' with rfl | hr'
          · rcases hbad with hbad | ⟨b', hb', hbt⟩
            · rw [hg] at hbad; cases hbad
            · rw [hg] at hb'
              cases hb'
              exact absurd ht hbt
          · exact ⟨r', hr', hbad⟩
      · have hstep : checkRefs books (r :: rest) = vFail "title mismatch".data := by
          simp [checkRefs, hg, ht]
        rw [hstep]
        constructor
        · intro _
          exact ⟨r, List.mem_cons_self _ _, Or.inr ⟨b, hg, ht⟩⟩
        · intro _
          rfl

/-- Claim C3: the reference-integrity validator fails on an input exactly
when some reference's id is not in the catalog, or some reference's title
differs from that catalog entry's recorded title, or a nonempty pinned book
id resolves in the catalog while no reference at all appears in the
response; in every other case it passes. -/
theorem c3_reference_integrity_iff (books : List Book) (input : ValidationInput) :
    (bookAnnotationValidate books input).isValid = false ↔
      ((∃ r ∈ extractBookRefs input.response,
          getBook books r.bookId = none ∨
          ∃ b, getBook books r.bookId = some b ∧ ¬ b.title = r.title) ∨
       (extractBookRefs input.response = [] ∧
        ∃ bid, input.bookID = some bid ∧ ¬ bid = [] ∧
          (getBook books bid).isSome)) := by
  by_cases h : extractBookRefs input.response = []
  · have hempty : ¬ ∃ r ∈ extractBookRefs input.response,
        getBook books r.bookId = none ∨
        ∃ b, getBook books r.bookId = some b ∧ ¬ b.title = r.title := by
      rw [h]; simp
    cases hb : input.bookID with
    | none =>
      simp [bookAnnotationValidate, h, hb, vOK]
    | some bid =>
      by_cases hbe : bid = []
      · subst hbe
        simp [bookAnnotationValidate, h, hb, vOK]
      · cases hg : getBook books bid with
        | none => simp [bookAnnotationValidate, h, hb, hbe, hg, vOK]
        | some b => simp [bookAnnotationValidate, h, hb, hbe, hg, vFail]
  · have hv : bookAnnotationValidate books input =
        checkRefs books (extractBookRefs input.response) := by
      simp [bookAnnotationValidate, h]
    rw [hv, checkRefs_invalid_iff]
    simp [h]

/-! ## Claim C9: recommendation-memory merge -/

/-- Claim C9: the recommendation-memory merge deduplicates (each id occurs
exactly once in the stored list), keeps the first occurrence of each id in
order (cons characterization and sublist order preservation), and merging
the same id twice yields the same list as merging it once. -/
theorem c9_merge_idempotent_dedup :
    (∀ (l : List Str) (a : Str),
        (deduplicateStrings l).count a = if a ∈ l then 1 else 0) ∧
    (∀ (a : Str) (l : List Str),
        deduplicateStrings (a :: l) =
          a :: deduplicateStrings (l.filter fun b => !(b = a))) ∧
    (∀ (prev : List Str) (a : Str),
        mergeRecommended prev [a, a] = mergeRecommended prev [a]) ∧
    (∀ l : List Str, (deduplicateStrings l).Sublist l) := by
  refine ⟨?_, ?_, ?_, ?_⟩
  · intro l a
    rw [deduplicateStrings, dedupGo_count]
    simp
  · intro a l
    show dedupGo [] (a :: l) = _
    rw [show dedupGo [] (a :: l) = a :: dedupGo [a] l from by simp [dedupGo]]
    rw [dedupGo_insert l [] a]
    rfl
  · intro prev a
    unfold mergeRecommended deduplicateStrings
    exact dedupGo_pair_congr prev [] [a, a] [a] fun seen => by
      by_cases h : a ∈ seen <;> simp [dedupGo, h]
  · intro l
    exact dedupGo_sublist l []

/-! ## Claim C10: prompt segment ordering -/

/-- Claim C10: for every combination of optional segments, the assembled
prompt is exactly: exclusion notice (if any), then prior-conversation
summary (if any), then selected-item context (if any), then the language
directive, then the user text last. -/
theorem c10_prompt_segment_order (message : Str) (opts : ContextOptions) :
    buildMessageContext message opts =
      (if opts.previousBooks = [] then []
       else exclusionNotice opts.language opts.previousBooks ++ nl2) ++
      ((if opts.recentConversation = [] then []
        else opts.recentConversation ++ nl2) ++
       ((match opts.selectedBook with
         | some b => selectedBookContext b ++ nl2
         | none => []) ++
        (buildLanguageInstruction opts.language ++ nl2 ++ message))) := by
  obtain ⟨lang, sel, prev, recent⟩ := opts
  cases sel <;> by_cases hp : prev = [] <;> by_cases hr : recent = [] <;>
    simp [buildMessageContext, hp, hr, List.append_assoc]

/-! ## Claims C2 and C5: handler short-circuit and retry classification -/

/-- Claim C2: for every user message matching an injection signature (after
normalization), the handler returns HTTP 200 with the fixed canned refusal
reply — the idle (neutral) mood and exactly two generic follow-up
suggestions — and performs no agent call and no session creation. -/
theorem c2_injection_short_circuit (isInj : Str → Bool) (normalize : Str → Str)
    (books : List Book) (agentAvailable : Bool) (newSessionId : Str)
    (attempts : Nat → Except GoError ChatResponseE) (req : ChatRequestE)
    (hne : ¬ req.message = []) (hlen : ¬ req.message.length > MaxMessageLength)
    (hinj : isInj (normalize req.message) = true) :
    handleChat isInj normalize books agentAvailable newSessionId attempts req =
      { status := 200, bodyResponse := cannedInjectionResponse,
        bodyEmotion := "idle".data,
        bodySuggestions := cannedInjectionSuggestions,
        bodySessionId := [], bodyCode := [], modelCalls := 0,
        sessionsCreated := 0 } ∧
    cannedInjectionSuggestions.length = 2 := by
  constructor
  · simp [handleChat, hne, hlen, hinj]
  · rfl

/-- Witness for C2 at a concrete request and matcher. -/
theorem c2_injection_short_circuit_witness :
    handleChat (fun _ => true) (fun s => s) [] false []
      (fun _ => .error .canceled)
      { message := "hi".data, bookId := none, sessionId := none } =
      { status := 200, bodyResponse := cannedInjectionResponse,
        bodyEmotion := "idle".data,
        bodySuggestions := cannedInjectionSuggestions,
        bodySessionId := [], bodyCode := [], modelCalls := 0,
        sessionsCreated := 0 } ∧
    cannedInjectionSuggestions.length = 2 :=
  c2_injection_short_circuit (fun _ => true) (fun s => s) [] false []
    (fun _ => .error .canceled)
    { message := "hi".data, bookId := none, sessionId := none }
    (by decide) (by decide) rfl

theorem cwrGo_persistent (attempts : Nat → Except GoError ChatResponseE)
    (e : GoError) (he : ¬ e = .canceled) (h : ∀ n, attempts n = .error e) :
    ∀ (fuel : Nat), 1 ≤ fuel → ∀ (attempt : Nat) (lastErr : GoError),
    cwrGo attempts fuel attempt lastErr = (.error e, attempt + fuel)
  | 0, hf => by omega
  | fuel + 1, _ => by
    intro attempt lastErr
    show (match attempts attempt with
      | .ok r => (.ok r, attempt + 1)
      | .error e' =>
        if e' = .canceled then (.error e', attempt + 1)
        else cwrGo attempts fuel (attempt + 1) e') =
      (.error e, attempt + (fuel + 1))
    rw [h attempt]
    show (if e = .canceled then ((.error e : Except GoError ChatResponseE), attempt + 1)
          else cwrGo attempts fuel (attempt + 1) e) = _
    rw [if_neg he]
    cases fuel with
    | zero => rfl
    | succ m =>
      rw [cwrGo_persistent attempts e he h (m + 1) (by omega) (attempt + 1) e]
      simp only [Prod.mk.injEq]
      exact ⟨trivial, by omega⟩

/-- Counterexample for C5 as stated: when the provider persistently reports
resource exhaustion, the retry loop spends its full retry budget
(`MaxRetries + 1 = 3` agent calls, exactly as for a persistent generic
error) before the error is surfaced; it is not cut short for the
throttling condition. -/
theorem c5_counterexample :
    chatWithRetry (fun _ => .error .resourceExhausted) =
      (.error .resourceExhausted, MaxRetries + 1) ∧
    chatWithRetry (fun _ => .error (.generic "boom".data)) =
      (.error (.generic "boom".data), MaxRetries + 1) ∧
    MaxRetries + 1 = 3 :=
  ⟨rfl, rfl, rfl⟩

/-- Claim C5, amended: a persistent resource-exhaustion condition is
classified distinctly from generic failures (`isRateLimitError`) and
surfaced as a distinct throttling error — HTTP 429 with code
`GEMINI_RATE_LIMITED` — but only after the retry loop has spent its full
budget of `MaxRetries + 1` attempts; only caller cancellation short-circuits
the retry loop. -/
theorem c5_throttling_after_full_retry (isInj : Str → Bool)
    (normalize : Str → Str) (books : List Book) (newSessionId : Str)
    (attempts : Nat → Except GoError ChatResponseE) (req : ChatRequestE)
    (hne : ¬ req.message = []) (hlen : ¬ req.message.length > MaxMessageLength)
    (hinj : isInj (normalize req.message) = false)
    (hbook : (match req.bookId with
              | some b => !(b = []) && (getBook books b).isNone
              | none => false) = false)
    (hq : ∀ n, attempts n = .error .resourceExhausted) :
    (handleChat isInj normalize books true newSessionId attempts req).status = 429 ∧
    (handleChat isInj normalize books true newSessionId attempts req).bodyCode =
      "GEMINI_RATE_LIMITED".data ∧
    (handleChat isInj normalize books true newSessionId attempts req).modelCalls =
      MaxRetries + 1 ∧
    isRateLimitError .resourceExhausted = true ∧
    (∀ g : Str, occursIn "ResourceExhausted".data g = false →
      occursIn "429".data g = false → occursIn "rate limit".data g = false →
      occursIn "quota".data g = false →
      isRateLimitError (.generic g) = false) ∧
    chatWithRetry (fun _ => .error .canceled) = (.error .canceled, 1) := by
  have hcwr : chatWithRetry attempts = (.error .resourceExhausted, MaxRetries + 1) := by
    unfold chatWithRetry
    exact cwrGo_persistent attempts .resourceExhausted (by decide) hq
      (MaxRetries + 1) (by decide) 0 (.generic [])
  refine ⟨?_, ?_, ?_, rfl, ?_, rfl⟩
  · simp [handleChat, hne, hlen, hinj, hbook, hcwr, isRateLimitError]
  · simp [handleChat, hne, hlen, hinj, hbook, hcwr, isRateLimitError]
  · simp [handleChat, hne, hlen, hinj, hbook, hcwr, isRateLimitError]
  · intro g h1 h2 h3 h4
    simp [isRateLimitError, errString, h1, h2, h3, h4]

/-- Witness for the amended C5 at a concrete request and oracle. -/
theorem c5_throttling_witness :
    (handleChat (fun _ => false) (fun s => s) [] true []
      (fun _ => .error .resourceExhausted)
      { message := "hi".data, bookId := none, sessionId := none }).status = 429 ∧
    (handleChat (fun _ => false) (fun s => s) [] true []
      (fun _ => .error .resourceExhausted)
      { message := "hi".data, bookId := none, sessionId := none }).bodyCode =
      "GEMINI_RATE_LIMITED".data ∧
    (handleChat (fun _ => false) (fun s => s) [] true []
      (fun _ => .error .resourceExhausted)
      { message := "hi".data, bookId := none, sessionId := none }).modelCalls =
      MaxRetries + 1 ∧
    isRateLimitError .resourceExhausted = true ∧
    (∀ g : Str, occursIn "ResourceExhausted".data g = false →
      occursIn "429".data g = false → occursIn "rate limit".data g = false →
      occursIn "quota".data g = false →
      isRateLimitError (.generic g) = false) ∧
    chatWithRetry (fun _ => .error .canceled) = (.error .canceled, 1) :=
  c5_throttling_after_full_retry (fun _ => false) (fun s => s) [] []
    (fun _ => .error .resourceExhausted)
    { message := "hi".data, bookId := none, sessionId := none }
    (by decide) (by decide) rfl rfl (fun _ => rfl)

/-! ## Claims C1 and C4: what Chat returns and stores after validation -/

/-- Claim C1 (evaluation at the failing input): with a catalog containing
only `book-1`, a generated response referencing the nonexistent `book-9`
fails the reference-integrity validator; when the corrector's assist call
then returns an error, `Chat` discards the corrector's fallback text and
returns exactly the uncorrected original response text to the caller. -/
theorem c1_uncorrected_on_corrector_error :
    (bookAnnotationValidate [⟨"book-1".data, "T".data, [], []⟩]
      { userQuestion := "q".data,
        response := "Try [book::Ghost::book-9]!".data,
        bookID := none, language := "en".data,
        previousBooks := [] }).isValid = false ∧
    (chatPostProcess [⟨"book-1".data, "T".data, [], []⟩] "q".data
      "Try [book::Ghost::book-9]!".data none "en".data [] none).1 =
      "Try [book::Ghost::book-9]!".data := by
  constructor
  · decide
  · decide

/-- Counterexample for C4 as stated: after a completed Chat request in which
the corrector's replacement text references the nonexistent `book-9`, the
recommendation memory stores `book-9`, which is not in the catalog. -/
theorem c4_counterexample :
    "book-9".data ∈ (chatPostProcess [⟨"book-1".data, "T".data, [], []⟩]
      "q".data "x [book::Ghost::book-9]!".data none "en".data []
      (some "Go [book::Ghost::book-9]!".data)).2 ∧
    getBook [⟨"book-1".data, "T".data, [], []⟩] "book-9".data = none := by
  constructor
  · decide
  · decide

theorem tryBookID_shape {s : Str} {a : Str} {n : Nat}
    (h : tryBookID s = some (a, n)) :
    ∃ ds : Str, ¬ ds = [] ∧ (∀ c ∈ ds, c.isDigit = true) ∧
      a = "book-".data ++ ds := by
  simp only [tryBookID] at h
  split at h
  case isFalse => exact absurd h (by simp)
  split at h
  case isTrue => exact absurd h (by simp)
  split at h
  case h_2 => exact absurd h (by simp)
  split at h
  case isFalse => exact absurd h (by simp)
  split at h
  case isTrue => exact absurd h (by simp)
  split at h
  case h_2 => exact absurd h (by simp)
  rename_i hdig _ _ _
  injection h with h1
  injection h1 with ha hn
  refine ⟨_, ?_, ?_, ha.symm⟩
  · intro hc
    rw [hc] at hdig
    simp at hdig
  · intro c hc
    exact List.mem_takeWhile_imp hc

theorem extractBookIDs_shape (t : Str) (e : Str)
    (he : e ∈ extractBookIDsFromText t) :
    ∃ ds : Str, ¬ ds = [] ∧ (∀ c ∈ ds, c.isDigit = true) ∧
      e = "book-".data ++ ds := by
  unfold extractBookIDsFromText deduplicateStrings at he
  have hm := dedupGo_mem _ [] _ he
  obtain ⟨s', n, h⟩ := scanAll_shape tryBookID t e hm
  exact tryBookID_shape h

/-- Claim C4, amended: every entry stored in the recommendation memory after
a Chat request is either an entry that was already stored before the
request, or a string of the form `book-` followed by a nonempty digit run
extracted from the final response text; membership in the catalog is NOT
guaranteed, because corrected and error-fallback texts are never
re-validated. -/
theorem c4_memory_entries_shape (books : List Book) (message parsedResp : Str)
    (bookID : Option Str) (language : Str) (previousBooks : List Str)
    (llm : Option Str) (e : Str)
    (he : e ∈ (chatPostProcess books message parsedResp bookID language
      previousBooks llm).2) :
    e ∈ previousBooks ∨
      ∃ ds : Str, ¬ ds = [] ∧ (∀ c ∈ ds, c.isDigit = true) ∧
        e = "book-".data ++ ds := by
  simp only [chatPostProcess] at he
  split at he
  all_goals split at he
  all_goals
    first
      | exact Or.inl he
      | (unfold mergeRecommended deduplicateStrings at he
         have hm := dedupGo_mem _ [] _ he
         rcases List.mem_append.mp hm with hm | hm
         · exact Or.inl hm
         · exact Or.inr (extractBookIDs_shape _ e hm))

/-- Witness for the amended C4: the stored entry `book-9` of the C4 scenario
has the promised `book-` + digits shape. -/
theorem c4_memory_entries_shape_witness :
    "book-9".data ∈ ([] : List Str) ∨
      ∃ ds : Str, ¬ ds = [] ∧ (∀ c ∈ ds, c.isDigit = true) ∧
        "book-9".data = "book-".data ++ ds :=
  c4_memory_entries_shape [⟨"book-1".data, "T".data, [], []⟩] "q".data
    "x [book::Ghost::book-9]!".data none "en".data []
    (some "Go [book::Ghost::book-9]!".data) "book-9".data (by decide)

/-! ## Claim C6: session compaction trigger -/

/-- Claim C6: on the next request, a conversation whose accumulated event
count is exactly `2 × RecentTurnsToKeep` is compacted — the old session is
deleted and a session is recreated under the same external session id with
the rendered transcript of the most recent `2 × RecentTurnsToKeep` events as
its single state value — while a conversation with `2 × RecentTurnsToKeep - 1`
events is left unchanged. -/
theorem c6_compaction_at_threshold (svc : SvcMap) (sid : Str) (sess : SessionData)
    (hget : svcGet svc sid = some sess) :
    (sess.events.length = 2 * RecentTurnsToKeep →
      compactSessionHistory svc sid =
        (svcCreate (svcDelete svc sid) sid
          { events := [],
            state :=
              if !(extractRecentConversation sess.events (RecentTurnsToKeep * 2) = [])
              then [(RecentConversationStateKey,
                     extractRecentConversation sess.events (RecentTurnsToKeep * 2))]
              else [] }, sid, false) ∧
      svcGet (compactSessionHistory svc sid).1 sid =
        some { events := [],
               state :=
                 if !(extractRecentConversation sess.events (RecentTurnsToKeep * 2) = [])
                 then [(RecentConversationStateKey,
                        extractRecentConversation sess.events (RecentTurnsToKeep * 2))]
                 else [] }) ∧
    (sess.events.length = 2 * RecentTurnsToKeep - 1 →
      compactSessionHistory svc sid = (svc, sid, false)) := by
  constructor
  · intro h6
    have hnotlt : ¬ sess.events.length < RecentTurnsToKeep * 2 := by
      rw [h6]; decide
    have heq : compactSessionHistory svc sid =
        (svcCreate (svcDelete svc sid) sid
          { events := [],
            state :=
              if !(extractRecentConversation sess.events (RecentTurnsToKeep * 2) = [])
              then [(RecentConversationStateKey,
                     extractRecentConversation sess.events (RecentTurnsToKeep * 2))]
              else [] }, sid, false) := by
      simp only [compactSessionHistory, hget]
      rw [if_neg hnotlt]
    refine ⟨heq, ?_⟩
    rw [heq]
    simp [svcCreate, svcGet]
  · intro h5
    have hlt : sess.events.length < RecentTurnsToKeep * 2 := by
      rw [h5]; decide
    simp only [compactSessionHistory, hget]
    rw [if_pos hlt]

/-- Witness for C6: a six-event session under id `s` is compacted (the map
entry is replaced by an empty-event session carrying the transcript), and a
five-event session is left unchanged. -/
theorem c6_compaction_witness :
    (compactSessionHistory
        [("s".data,
          { events := [⟨some ("user".data, ["u1".data])⟩,
                       ⟨some ("model".data, ["a1".data])⟩,
                       ⟨some ("user".data, ["u2".data])⟩,
                       ⟨some ("model".data, ["a2".data])⟩,
                       ⟨some ("user".data, ["u3".data])⟩,
                       ⟨some ("model".data, ["a3".data])⟩],
            state := [] })] "s".data =
      (svcCreate
        (svcDelete
          [("s".data,
            { events := [⟨some ("user".data, ["u1".data])⟩,
                         ⟨some ("model".data, ["a1".data])⟩,
                         ⟨some ("user".data, ["u2".data])⟩,
                         ⟨some ("model".data, ["a2".data])⟩,
                         ⟨some ("user".data, ["u3".data])⟩,
                         ⟨some ("model".data, ["a3".data])⟩],
              state := [] })] "s".data) "s".data
        { events := [],
          state :=
            if !(extractRecentConversation
                  [⟨some ("user".data, ["u1".data])⟩,
                   ⟨some ("model".data, ["a1".data])⟩,
                   ⟨some ("user".data, ["u2".data])⟩,
                   ⟨some ("model".data, ["a2".data])⟩,
                   ⟨some ("user".data, ["u3".data])⟩,
                   ⟨some ("model".data, ["a3".data])⟩] (RecentTurnsToKeep * 2) = [])
            then [(RecentConversationStateKey,
                   extractRecentConversation
                     [⟨some ("user".data, ["u1".data])⟩,
                      ⟨some ("model".data, ["a1".data])⟩,
                      ⟨some ("user".data, ["u2".data])⟩,
                      ⟨some ("model".data, ["a2".data])⟩,
                      ⟨some ("user".data, ["u3".data])⟩,
                      ⟨some ("model".data, ["a3".data])⟩] (RecentTurnsToKeep * 2))]
            else [] }, "s".data, false)) ∧
    (compactSessionHistory
        [("t".data,
          { events := [⟨some ("user".data, ["u1".data])⟩,
                       ⟨some ("model".data, ["a1".data])⟩,
                       ⟨some ("user".data, ["u2".data])⟩,
                       ⟨some ("model".data, ["a2".data])⟩,
                       ⟨some ("user".data, ["u3".data])⟩],
            state := [] })] "t".data =
      ([("t".data,
         { events := [⟨some ("user".data, ["u1".data])⟩,
                      ⟨some ("model".data, ["a1".data])⟩,
                      ⟨some ("user".data, ["u2".data])⟩,
                      ⟨some ("model".data, ["a2".data])⟩,
                      ⟨some ("user".data, ["u3".data])⟩],
           state := [] })], "t".data, false)) :=
  ⟨((c6_compaction_at_threshold
      [("s".data,
        { events := [⟨some ("user".data, ["u1".data])⟩,
                     ⟨some ("model".data, ["a1".data])⟩,
                     ⟨some ("user".data, ["u2".data])⟩,
                     ⟨some ("model".data, ["a2".data])⟩,
                     ⟨some ("user".data, ["u3".data])⟩,
                     ⟨some ("model".data, ["a3".data])⟩],
          state := [] })] "s".data
      { events := [⟨some ("user".data, ["u1".data])⟩,
                   ⟨some ("model".data, ["a1".data])⟩,
                   ⟨some ("user".data, ["u2".data])⟩,
                   ⟨some ("model".data, ["a2".data])⟩,
                   ⟨some ("user".data, ["u3".data])⟩,
                   ⟨some ("model".data, ["a3".data])⟩],
        state := [] } (by decide)).1 (by decide)).1,
   (c6_compaction_at_threshold
      [("t".data,
        { events := [⟨some ("user".data, ["u1".data])⟩,
                     ⟨some ("model".data, ["a1".data])⟩,
                     ⟨some ("user".data, ["u2".data])⟩,
                     ⟨some ("model".data, ["a2".data])⟩,
                     ⟨some ("user".data, ["u3".data])⟩],
          state := [] })] "t".data
      { events := [⟨some ("user".data, ["u1".data])⟩,
                   ⟨some ("model".data, ["a1".data])⟩,
                   ⟨some ("user".data, ["u2".data])⟩,
                   ⟨some ("model".data, ["a2".data])⟩,
                   ⟨some ("user".data, ["u3".data])⟩],
        state := [] } (by decide)).2 (by decide)⟩

/-! ## Claim C7: two-tier rate limiting -/

theorem bucketAllow_same_instant (r burst tk now : Int)
    (hmin : min burst tk = tk) :
    bucketAllow r burst now ⟨tk, now⟩ =
    (if tk ≥ 1 then true else false,
     ⟨if tk ≥ 1 then tk - 1 else tk, now⟩) := by
  simp only [bucketAllow, sub_self, mul_zero, add_zero, hmin]
  by_cases h1 : tk ≥ 1 <;> simp [h1]

theorem middlewareAllow_same_instant (r burst : Int) (now nextMid : Int)
    (ip : Str) (c limit resetAt tk : Int) (hnr : ¬ now > resetAt)
    (hcl : ¬ c ≥ limit) (hmin : min burst tk = tk) :
    middlewareAllow r burst now nextMid ip
      { quota := ⟨c, limit, resetAt⟩, buckets := [(ip, ⟨tk, now⟩)] } =
    (if tk ≥ 1 then true else false,
     { quota := ⟨c + 1, limit, resetAt⟩,
       buckets := [(ip, ⟨if tk ≥ 1 then tk - 1 else tk, now⟩)] }) := by
  have hba := bucketAllow_same_instant r burst tk now hmin
  simp only [middlewareAllow, dailyQuotaAllow]
  rw [if_neg hnr, if_neg hcl]
  by_cases h1 : tk ≥ 1 <;> simp [getBucket, putBucket, hba, h1]

theorem middlewareAllow_fresh (r burst : Int) (now nextMid : Int)
    (ip : Str) (c limit resetAt : Int) (hnr : ¬ now > resetAt)
    (hcl : ¬ c ≥ limit) :
    middlewareAllow r burst now nextMid ip
      { quota := ⟨c, limit, resetAt⟩, buckets := [] } =
    (if burst ≥ 1 then true else false,
     { quota := ⟨c + 1, limit, resetAt⟩,
       buckets := [(ip, ⟨if burst ≥ 1 then burst - 1 else burst, now⟩)] }) := by
  have hba := bucketAllow_same_instant r burst burst now (min_self burst)
  simp only [middlewareAllow, dailyQuotaAllow]
  rw [if_neg hnr, if_neg hcl]
  by_cases h1 : burst ≥ 1 <;> simp [getBucket, putBucket, hba, h1]

theorem c7_bucket_loop (r : Int) (burst : Nat) (limit resetAt now nextMid : Int)
    (ip : Str) : ∀ (j k : Nat), k + j = burst → ∀ c : Int,
    c + (j + 1) ≤ limit → ¬ now > resetAt →
    (runRequests r (burst : Int) now nextMid ip (j + 1)
      { quota := ⟨c, limit, resetAt⟩,
        buckets := [(ip, ⟨(burst : Int) - (k : Int), now⟩)] }).1 =
    List.replicate j true ++ [false]
  | 0, k, hk, c, hc, hnr => by
    have hkb : (burst : Int) - (k : Int) = 0 := by omega
    have hcl : ¬ c ≥ limit := by omega
    have hmin : min (burst : Int) (0 : Int) = 0 := by
      rw [min_eq_right]
      omega
    simp only [runRequests, hkb]
    rw [middlewareAllow_same_instant r (burst : Int) now nextMid ip c limit
      resetAt 0 hnr hcl hmin]
    norm_num

  | j + 1, k, hk, c, hc, hnr => by
    have hcl : ¬ c ≥ limit := by omega
    have hle : (burst : Int) - (k : Int) ≤ (burst : Int) := by omega
    have hmin : min (burst : Int) ((burst : Int) - (k : Int)) =
        (burst : Int) - (k : Int) := min_eq_right hle
    have htk : ((burst : Int) - (k : Int)) ≥ 1 := by omega
    show ((middlewareAllow r (burst : Int) now nextMid ip
        { quota := ⟨c, limit, resetAt⟩,
          buckets := [(ip, ⟨(burst : Int) - (k : Int), now⟩)] }).1 ::
      (runRequests r (burst : Int) now nextMid ip (j + 1)
        (middlewareAllow r (burst : Int) now nextMid ip
          { quota := ⟨c, limit, resetAt⟩,
            buckets := [(ip, ⟨(burst : Int) - (k : Int), now⟩)] }).2).1) = _
    rw [middlewareAllow_same_instant r (burst : Int) now nextMid ip c limit
      resetAt ((burst : Int) - (k : Int)) hnr hcl hmin]
    simp only [if_pos htk]
    show (true :: (runRequests r (burst : Int) now nextMid ip (j + 1)
      { quota := ⟨c + 1, limit, resetAt⟩,
        buckets := [(ip, ⟨(burst : Int) - (k : Int) - 1, now⟩)] }).1) = _
    have harith : ((burst : Int) - (k : Int)) - 1 =
        (burst : Int) - (((k + 1 : Nat)) : Int) := by push_cast; ring
    rw [harith]
    rw [c7_bucket_loop r burst limit resetAt now nextMid ip j (k + 1)
      (by omega) (c + 1) (by omega) hnr]
    rfl

/-- Claim C7: a single source issuing `burst + 1` requests within the refill
window (same clock instant, empty bucket map, daily quota not limiting) has
its first `burst` requests admitted and the `(burst+1)`-th rejected; once
the global daily counter has reached its limit, every request from every
source is rejected with the state unchanged, until the reset instant
passes, after which the daily check admits again. -/
theorem c7_two_tier_rate_limit :
    (∀ (r : Int) (burst : Nat) (limit resetAt now nextMid : Int) (ip : Str),
       1 ≤ burst → (burst : Int) + 1 ≤ limit → ¬ now > resetAt →
       (runRequests r (burst : Int) now nextMid ip (burst + 1)
         { quota := ⟨0, limit, resetAt⟩, buckets := [] }).1 =
       List.replicate burst true ++ [false]) ∧
    (∀ (st : RateState) (r burst now nextMid : Int) (ip : Str),
       st.quota.count ≥ st.quota.limit → ¬ now > st.quota.resetAt →
       middlewareAllow r burst now nextMid ip st = (false, st)) ∧
    (∀ (q : DailyQuota) (now nextMid : Int),
       now > q.resetAt → 0 < q.limit →
       (dailyQuotaAllow now nextMid q).1 = true) := by
  refine ⟨?_, ?_, ?_⟩
  · intro r burst limit resetAt now nextMid ip hb hl hnr
    obtain ⟨b, rfl⟩ : ∃ b, burst = b + 1 := ⟨burst - 1, by omega⟩
    have hcl : ¬ (0 : Int) ≥ limit := by omega
    have hge : ((b + 1 : Nat) : Int) ≥ 1 := by omega
    show ((middlewareAllow r ((b + 1 : Nat) : Int) now nextMid ip
        { quota := ⟨0, limit, resetAt⟩, buckets := [] }).1 ::
      (runRequests r ((b + 1 : Nat) : Int) now nextMid ip (b + 1)
        (middlewareAllow r ((b + 1 : Nat) : Int) now nextMid ip
          { quota := ⟨0, limit, resetAt⟩, buckets := [] }).2).1) = _
    rw [middlewareAllow_fresh r ((b + 1 : Nat) : Int) now nextMid ip 0 limit
      resetAt hnr hcl]
    simp only [if_pos hge]
    show (true :: (runRequests r ((b + 1 : Nat) : Int) now nextMid ip (b + 1)
      { quota := ⟨0 + 1, limit, resetAt⟩,
        buckets := [(ip, ⟨((b + 1 : Nat) : Int) - 1, now⟩)] }).1) = _
    have harith : ((b + 1 : Nat) : Int) - 1 =
        ((b + 1 : Nat) : Int) - ((1 : Nat) : Int) := by push_cast; ring
    rw [harith]
    rw [c7_bucket_loop r (b + 1) limit resetAt now nextMid ip b 1
      (by omega) (0 + 1) (by omega) hnr]
    rfl
  · intro st r burst now nextMid ip hcl hnr
    obtain ⟨⟨c, limit, resetAt⟩, buckets⟩ := st
    simp only at hcl hnr
    simp only [middlewareAllow, dailyQuotaAllow]
    rw [if_neg hnr, if_pos hcl]
    rfl
  · intro q now nextMid hreset hlim
    obtain ⟨c, limit, resetAt⟩ := q
    simp only at hreset hlim
    simp only [dailyQuotaAllow]
    rw [if_pos hreset]
    have : ¬ (0 : Int) ≥ limit := by omega
    rw [if_neg this]

/-- Witness for C7 at concrete numbers: burst 2, daily limit 10, three
same-instant requests give [true, true, false]; an exhausted daily counter
rejects and leaves the state unchanged; after the reset instant the daily
check admits again. -/
theorem c7_two_tier_witness :
    (runRequests 1 ((2 : Nat) : Int) 0 100 "ip".data 3
      { quota := ⟨0, 10, 50⟩, buckets := [] }).1 =
      List.replicate 2 true ++ [false] ∧
    middlewareAllow 1 2 0 100 "ip".data
      { quota := ⟨10, 10, 50⟩, buckets := [] } =
      (false, { quota := ⟨10, 10, 50⟩, buckets := [] }) ∧
    (dailyQuotaAllow 60 100 ⟨10, 10, 50⟩).1 = true :=
  ⟨c7_two_tier_rate_limit.1 1 2 10 50 0 100 "ip".data (by decide) (by decide)
    (by decide),
   c7_two_tier_rate_limit.2.1 { quota := ⟨10, 10, 50⟩, buckets := [] } 1 2 0 100
     "ip".data (by decide) (by decide),
   c7_two_tier_rate_limit.2.2 ⟨10, 10, 50⟩ 60 100 (by decide) (by decide)⟩

/-! ## Claim C8: response-parser round trip — positional helper lemmas -/

theorem getApp {x y : Str} {i : Nat} (h : i < x.length) :
    (x ++ y)[i]? = x[i]? := by
  rw [List.getElem?_append]
  exact if_pos h

theorem getDropZero {x : Str} {q : Nat} (hq : q < x.length) {y : Str} :
    (x.drop q ++ y)[0]? = x[q]? := by
  have h0 : 0 < (x.drop q).length := by
    rw [List.length_drop]; omega
  rw [getApp h0, List.getElem?_drop]
  rw [Nat.add_zero]

theorem litPre_pos_length {p : Str} {c : Char} (hp : p[0]? = some c) :
    0 < p.length := by
  cases p with
  | nil => simp at hp
  | cons a p => simp

theorem litPre_drop_head_false {p : Str} {c : Char} (hp : p[0]? = some c)
    {x y : Str} {q : Nat} (hq : q < x.length) (hne : ¬ x[q]? = some c) :
    litPre p (x.drop q ++ y) = false := by
  apply litPre_false_of_get (litPre_pos_length hp)
  rw [getDropZero hq, hp]
  exact fun h => hne h.symm

theorem litPre_seg_false {p : Str} {x y : Str} {q : Nat} (hq : q < x.length)
    (hnocc : occursIn p x = false)
    (hhead : ∀ i, 0 < i → i < p.length → ¬ p[i]? = y[0]?) :
    litPre p (x.drop q ++ y) = false := by
  cases hl : litPre p (x.drop q ++ y) with
  | false => rfl
  | true =>
    exfalso
    by_cases hlen : p.length ≤ (x.drop q).length
    · have hpd : litPre p (x.drop q) = true := by
        rw [← litPre_append_left p (x.drop q) y hlen]
        exact hl
      have := occursIn_of_litPre_drop hpd
      rw [hnocc] at this
      exact Bool.false_ne_true this
    · have hd : 0 < (x.drop q).length := by
        rw [List.length_drop]; omega
      have hcross := litPre_cross hl (by omega)
      exact hhead (x.drop q).length hd (by omega) hcross

theorem occursIn_append_false {p : Str} (x y : Str)
    (hx : ∀ q, q < x.length → litPre p (x.drop q ++ y) = false)
    (hy : occursIn p y = false) : occursIn p (x ++ y) = false := by
  induction x with
  | nil => simpa using hy
  | cons c x ih =>
    have h0 : litPre p (c :: (x ++ y)) = false := by
      simpa using hx 0 (Nat.succ_pos _)
    have hrest := ih fun q hq => by simpa using hx (q + 1) (by simpa using Nat.succ_lt_succ hq)
    simp [occursIn, h0, hrest]

theorem scanFirst_here {α : Type} (try1 : Str → Option (α × Nat)) (s : Str)
    {a : α} {n : Nat} (h : try1 s = some (a, n)) :
    scanFirst try1 s = some ([], a, s.drop n) := by
  cases s with
  | nil => simp [scanFirst, h]
  | cons c s => simp [scanFirst, h]

/-! ## Claim C8 — matcher-specific lemmas -/

theorem tryEmotionIn_none (ns : List Str) (s : Str)
    (h : ∀ nm ∈ ns, litPre (tagLit nm) s = false) :
    tryEmotionIn ns s = none := by
  induction ns with
  | nil => rfl
  | cons nm ns ih =>
    have h0 := h nm (List.mem_cons_self _ _)
    simp only [tryEmotionIn, h0]
    simp only [Bool.false_eq_true, if_false]
    exact ih fun nm' hnm' => h nm' (List.mem_cons_of_mem _ hnm')

theorem tagLit_decomp (nm : Str) :
    tagLit nm = "[EMOTION:".data ++ (nm ++ [']']) := by
  simp [tagLit, List.append_assoc]

theorem tryEmotion_none_of_em9 {s : Str}
    (h : litPre "[EMOTION:".data s = false) : tryEmotion s = none := by
  apply tryEmotionIn_none
  intro nm hnm
  cases hl : litPre (tagLit nm) s with
  | false => rfl
  | true =>
    exfalso
    rw [tagLit_decomp] at hl
    have := litPre_of_append hl
    rw [h] at this
    exact Bool.false_ne_true this

theorem trySugg_none_of_litPre {s : Str} (h : litPre suggLit s = false) :
    trySugg s = none := by
  simp [trySugg, h]

theorem occursIn_em9_none (s : Str)
    (h : occursIn "[EMOTION:".data s = false) :
    ∀ q, tryEmotion (s.drop q) = none := fun q =>
  tryEmotion_none_of_em9 (occursIn_false_litPre s h q)

theorem occursIn_sugg_none (s : Str)
    (h : occursIn suggLit s = false) :
    ∀ q, trySugg (s.drop q) = none := fun q =>
  trySugg_none_of_litPre (occursIn_false_litPre s h q)

theorem tagLit_facts :
    ∀ nm ∈ emotionNames,
      (1 < (tagLit nm).length ∧ (tagLit nm)[0]? = some '[' ∧
       (tagLit nm)[1]? = some 'E') ∧
      (∀ q, q < (tagLit nm).length → 0 < q → ¬ (tagLit nm)[q]? = some '[') := by
  decide

theorem em9_no_pipe :
    ∀ i, i < ("[EMOTION:".data).length → 0 < i →
      ¬ ("[EMOTION:".data)[i]? = some '|' := by decide

theorem em9_no_rbracket :
    ∀ i, i < ("[EMOTION:".data).length → 0 < i →
      ¬ ("[EMOTION:".data)[i]? = some ']' := by decide

theorem em9_head : ("[EMOTION:".data)[0]? = some '[' := by decide

theorem suggLit_no_bracket_tail :
    ∀ q, q < suggLit.length → 0 < q → ¬ suggLit[q]? = some '[' := by decide

theorem litPre_em9_suggLit_false :
    litPre "[EMOTION:".data suggLit = false := by decide

theorem litPre_false_at (p s : Str) (i : Nat) (hi : i < p.length)
    (hne : ¬ p[i]? = s[i]?) : litPre p s = false :=
  litPre_false_of_get hi hne

theorem tryEmotion_lit (nm : Str) (hm : nm ∈ emotionNames) (rest : Str) :
    tryEmotion (tagLit nm ++ rest) = some (nm, (tagLit nm).length) := by
  have hmem := hm
  simp only [emotionNames, List.mem_cons, List.not_mem_nil, or_false] at hmem
  rcases hmem with rfl | rfl | rfl | rfl | rfl
  · have h1 : litPre (tagLit "idle".data) (tagLit "idle".data ++ rest) = true :=
      litPre_self_append _ _
    simp only [tryEmotion, tryEmotionIn, emotionNames]
    rw [h1]
    simp
  · have h1 : litPre (tagLit "idle".data) (tagLit "thinking".data ++ rest) = false := by
      rw [litPre_append_left _ _ _ (by decide)]; decide
    have h2 := litPre_self_append (tagLit "thinking".data) rest
    simp only [tryEmotion, tryEmotionIn, emotionNames]
    rw [h1, h2]
    simp
  · have h1 : litPre (tagLit "idle".data) (tagLit "talking".data ++ rest) = false := by
      rw [litPre_append_left _ _ _ (by decide)]; decide
    have h2 : litPre (tagLit "thinking".data) (tagLit "talking".data ++ rest) = false := by
      apply litPre_false_at _ _ 10 (by decide)
      rw [getApp (by decide)]
      decide
    have h3 := litPre_self_append (tagLit "talking".data) rest
    simp only [tryEmotion, tryEmotionIn, emotionNames]
    rw [h1, h2, h3]
    simp
  · have h1 : litPre (tagLit "idle".data) (tagLit "surprised".data ++ rest) = false := by
      rw [litPre_append_left _ _ _ (by decide)]; decide
    have h2 : litPre (tagLit "thinking".data) (tagLit "surprised".data ++ rest) = false := by
      rw [litPre_append_left _ _ _ (by decide)]; decide
    have h3 : litPre (tagLit "talking".data) (tagLit "surprised".data ++ rest) = false := by
      rw [litPre_append_left _ _ _ (by decide)]; decide
    have h4 := litPre_self_append (tagLit "surprised".data) rest
    simp only [tryEmotion, tryEmotionIn, emotionNames]
    rw [h1, h2, h3, h4]
    simp
  · have h1 : litPre (tagLit "idle".data) (tagLit "greeting".data ++ rest) = false := by
      rw [litPre_append_left _ _ _ (by decide)]; decide
    have h2 : litPre (tagLit "thinking".data) (tagLit "greeting".data ++ rest) = false := by
      rw [litPre_append_left _ _ _ (by decide)]; decide
    have h3 : litPre (tagLit "talking".data) (tagLit "greeting".data ++ rest) = false := by
      rw [litPre_append_left _ _ _ (by decide)]; decide
    have h4 : litPre (tagLit "surprised".data) (tagLit "greeting".data ++ rest) = false := by
      apply litPre_false_at _ _ 9 (by decide)
      rw [getApp (by decide)]
      decide
    have h5 := litPre_self_append (tagLit "greeting".data) rest
    simp only [tryEmotion, tryEmotionIn, emotionNames]
    rw [h1, h2, h3, h4, h5]
    simp

theorem trySugg_generic (v B : Str) (hv : ∀ c ∈ v, ¬ c = ']')
    (hne : ¬ v = []) :
    trySugg (suggLit ++ (v ++ ']' :: B)) =
      some (v, suggLit.length + v.length + 1) := by
  have hpre := litPre_self_append suggLit (v ++ ']' :: B)
  have hdrop : (suggLit ++ (v ++ ']' :: B)).drop suggLit.length =
      v ++ ']' :: B := List.drop_left _ _
  have htake : (v ++ ']' :: B).takeWhile (fun c => !(c = ']')) = v := by
    rw [List.takeWhile_append_of_pos (fun c hc => by simpa using hv c hc)]
    simp
  have hlen : ¬ v.length = 0 := by
    simpa [List.length_eq_zero] using hne
  have hdrop2 : (v ++ ']' :: B).drop v.length = ']' :: B := List.drop_left _ _
  simp only [trySugg, hpre, if_true, hdrop, htake, hlen, hdrop2]
  simp [hlen]

theorem trySugg_at (a b B : Str) (ha : ']' ∉ a) (hb : ']' ∉ b)
    (hane : ¬ a = []) :
    trySugg (suggLit ++ (a ++ '|' :: (b ++ ']' :: B))) =
      some (a ++ '|' :: b,
        suggLit.length + (a ++ '|' :: b).length + 1) := by
  have hx : suggLit ++ (a ++ '|' :: (b ++ ']' :: B)) =
      suggLit ++ ((a ++ '|' :: b) ++ ']' :: B) := by simp
  rw [hx]
  apply trySugg_generic
  · intro c hc
    rcases List.mem_append.mp hc with hc | hc
    · exact fun h => ha (h ▸ hc)
    · rcases List.mem_cons.mp hc with rfl | hc
      · decide
      · exact fun h => hb (h ▸ hc)
  · simp

theorem occursIn_em9_inner (a b B : Str)
    (hEa : occursIn "[EMOTION:".data a = false)
    (hEb : occursIn "[EMOTION:".data b = false)
    (hEB : occursIn "[EMOTION:".data B = false) :
    occursIn "[EMOTION:".data (suggLit ++ (a ++ '|' :: (b ++ ']' :: B))) = false := by
  apply occursIn_append_false
  · intro q hq
    cases Nat.eq_zero_or_pos q with
    | inl h0 =>
      subst h0
      rw [List.drop_zero, litPre_append_left _ _ _ (by decide)]
      exact litPre_em9_suggLit_false
    | inr hpos =>
      exact litPre_drop_head_false em9_head hq (suggLit_no_bracket_tail q hq hpos)
  · apply occursIn_append_false
    · intro q hq
      exact litPre_seg_false hq hEa fun i hi hilen hne =>
        em9_no_pipe i hilen hi (by simpa using hne)
    · show occursIn _ ('|' :: (b ++ ']' :: B)) = false
      have hhd : litPre "[EMOTION:".data ('|' :: (b ++ ']' :: B)) = false := by
        apply litPre_false_at _ _ 0 (by decide)
        intro h
        simp only [List.getElem?_cons_zero] at h
        exact absurd h (by decide)
      have hrest : occursIn "[EMOTION:".data (b ++ ']' :: B) = false := by
        apply occursIn_append_false
        · intro q hq
          exact litPre_seg_false hq hEb fun i hi hilen hne =>
            em9_no_rbracket i hilen hi (by simpa using hne)
        · show occursIn _ (']' :: B) = false
          have hhd2 : litPre "[EMOTION:".data (']' :: B) = false := by
            apply litPre_false_at _ _ 0 (by decide)
            intro h
            simp only [List.getElem?_cons_zero] at h
            exact absurd h (by decide)
          simp [occursIn, hhd2, hEB]
      simp [occursIn, hhd, hrest]

theorem splitOnPipe_ne_nil : ∀ s : Str, ¬ splitOnPipe s = []
  | [] => by simp [splitOnPipe]
  | c :: s => by
    by_cases h : c = '|'
    · simp [splitOnPipe, h]
    · cases hs : splitOnPipe s with
      | nil => exact absurd hs (splitOnPipe_ne_nil s)
      | cons t ts => simp [splitOnPipe, h, hs]

theorem splitOnPipe_append : ∀ (a r : Str), '|' ∉ a →
    splitOnPipe (a ++ '|' :: r) = a :: splitOnPipe r
  | [], r, _ => by simp [splitOnPipe]
  | c :: a, r, h => by
    have hc : ¬ c = '|' := fun hc => h (by rw [← hc]; exact List.mem_cons_self c a)
    have hrec := splitOnPipe_append a r fun hm => h (List.mem_cons_of_mem _ hm)
    cases hs : splitOnPipe (a ++ '|' :: r) with
    | nil => exact absurd hs (splitOnPipe_ne_nil _)
    | cons t ts =>
      rw [hs] at hrec
      simp only [List.cons_append, splitOnPipe, hc, if_false, hs]
      rw [List.cons.injEq] at hrec
      have hs' : splitOnPipe (a.append ('|' :: r)) = t :: ts := hs
      rw [hs']
      simp [hrec.1, hrec.2]

theorem splitOnPipe_no_pipe : ∀ (b : Str), '|' ∉ b → splitOnPipe b = [b]
  | [], _ => rfl
  | c :: b, h => by
    have hc : ¬ c = '|' := fun hc => h (by rw [← hc]; exact List.mem_cons_self c b)
    have hrec := splitOnPipe_no_pipe b fun hm => h (List.mem_cons_of_mem _ hm)
    simp [splitOnPipe, hc, hrec]

theorem collectSugg_pair (a b : Str) (hta : trimSpace a = a) (hna : ¬ a = [])
    (htb : trimSpace b = b) (hnb : ¬ b = []) :
    collectSugg [a, b] = [a, b] := by
  simp [collectSugg, hta, hna, htb, hnb]

/-- Claim C8: (round trip) for every mood of the closed enumeration and
trimmed nonempty suggestions `a`, `b` free of `]`, `|` and of the tag
openers, applied to a tag-free body `B`, the parser reconstructs exactly the
mood, `[a, b]`, and `B` with the tags removed and whitespace trimmed;
(totality/defaults) when no emotion tag occurs the mood defaults to
`talking`, when no suggestions tag occurs the suggestions are empty, and
malformed tags (an out-of-enumeration mood, an empty suggestions list) are
treated as absent rather than failing. -/
theorem c8_parser_round_trip :
    (∀ (nm a b B : Str), nm ∈ emotionNames →
      occursIn "[EMOTION:".data B = false →
      occursIn "[SUGGESTIONS:".data B = false →
      occursIn "[EMOTION:".data a = false →
      occursIn "[EMOTION:".data b = false →
      ']' ∉ a → '|' ∉ a → ']' ∉ b → '|' ∉ b →
      trimSpace a = a → ¬ a = [] → trimSpace b = b → ¬ b = [] →
      parseResponse (tagLit nm ++ (suggLit ++ (a ++ '|' :: (b ++ ']' :: B)))) =
        { response := trimSpace B, emotion := nm, suggestions := [a, b] }) ∧
    (∀ t : Str, (∀ nm ∈ emotionNames, occursIn (tagLit nm) t = false) →
      extractEmotion t = defaultEmotion) ∧
    (∀ t : Str, occursIn suggLit t = false → extractSuggestions t = []) ∧
    parseResponse "[EMOTION:angry] ok".data =
      { response := "[EMOTION:angry] ok".data, emotion := defaultEmotion,
        suggestions := [] } ∧
    parseResponse "[SUGGESTIONS:] ok".data =
      { response := "[SUGGESTIONS:] ok".data, emotion := defaultEmotion,
        suggestions := [] } := by
  refine ⟨?_, ?_, ?_, by decide, by decide⟩
  · intro nm a b B hm hEB hSB hEa hEb hra hpa hrb hpb hta hna htb hnb
    obtain ⟨⟨hlen1, hz, ho⟩, htail⟩ := tagLit_facts nm hm
    have hE := tryEmotion_lit nm hm (suggLit ++ (a ++ '|' :: (b ++ ']' :: B)))
    have hTdrop : (tagLit nm ++ (suggLit ++ (a ++ '|' :: (b ++ ']' :: B)))).drop
        (tagLit nm).length = suggLit ++ (a ++ '|' :: (b ++ ']' :: B)) :=
      List.drop_left _ _
    have hS := trySugg_at a b B hra hrb hna
    -- emotion extraction
    have e1 : extractEmotion
        (tagLit nm ++ (suggLit ++ (a ++ '|' :: (b ++ ']' :: B)))) = nm := by
      rw [extractEmotion, scanFirst_here tryEmotion _ hE]
    -- suggestions extraction
    have hfail : ∀ q, q < (tagLit nm).length →
        trySugg ((tagLit nm).drop q ++
          (suggLit ++ (a ++ '|' :: (b ++ ']' :: B)))) = none := by
      intro q hq
      cases Nat.eq_zero_or_pos q with
      | inl h0 =>
        subst h0
        rw [List.drop_zero]
        apply trySugg_none_of_litPre
        apply litPre_false_at _ _ 1 (by decide)
        rw [getApp hlen1, ho]
        decide
      | inr hpos =>
        exact trySugg_none_of_litPre
          (litPre_drop_head_false (by decide) hq (htail q hq hpos))
    have e2 : extractSuggestions
        (tagLit nm ++ (suggLit ++ (a ++ '|' :: (b ++ ']' :: B)))) = [a, b] := by
      show (match scanFirst trySugg
          (tagLit nm ++ (suggLit ++ (a ++ '|' :: (b ++ ']' :: B)))) with
        | some (_, content, _) => collectSugg (splitOnPipe content)
        | none => []) = [a, b]
      rw [scanFirst_append trySugg _ _ hfail, scanFirst_here trySugg _ hS]
      show collectSugg (splitOnPipe (a ++ '|' :: b)) = [a, b]
      rw [splitOnPipe_append a b hpa, splitOnPipe_no_pipe b hpb]
      exact collectSugg_pair a b hta hna htb hnb
    have e3 : cleanResponse
        (tagLit nm ++ (suggLit ++ (a ++ '|' :: (b ++ ']' :: B)))) =
        trimSpace B := by
      have hremE : removeAll tryEmotion
          (tagLit nm ++ (suggLit ++ (a ++ '|' :: (b ++ ']' :: B)))) =
          suggLit ++ (a ++ '|' :: (b ++ ']' :: B)) := by
        rw [removeAll_consume tryEmotion _ hE (by omega), hTdrop]
        exact removeAll_eq_self tryEmotion _
          (occursIn_em9_none _ (occursIn_em9_inner a b B hEa hEb hEB))
      have hsplit : suggLit ++ (a ++ '|' :: (b ++ ']' :: B)) =
          (suggLit ++ ((a ++ '|' :: b) ++ [']'])) ++ B := by
        simp
      have hlen2 : (suggLit ++ ((a ++ '|' :: b) ++ [']'])).length =
          suggLit.length + (a ++ '|' :: b).length + 1 := by
        simp
        omega
      have hdropS : (suggLit ++ (a ++ '|' :: (b ++ ']' :: B))).drop
          (suggLit.length + (a ++ '|' :: b).length + 1) = B := by
        rw [hsplit]
        exact List.drop_left' hlen2
      have hremS : removeAll trySugg
          (suggLit ++ (a ++ '|' :: (b ++ ']' :: B))) = B := by
        rw [removeAll_consume trySugg _ hS (by omega), hdropS]
        exact removeAll_eq_self trySugg B (occursIn_sugg_none B hSB)
      rw [cleanResponse, hremE, hremS]
    rw [parseResponse, e1, e2, e3]
  · intro t h
    have hnone : ∀ q, tryEmotion (t.drop q) = none := fun q =>
      tryEmotionIn_none _ _ fun nm hnm => occursIn_false_litPre t (h nm hnm) q
    rw [extractEmotion, scanFirst_none tryEmotion t hnone]
  · intro t h
    rw [extractSuggestions, scanFirst_none trySugg t (occursIn_sugg_none t h)]

/-- Witness for C8 at mood `idle`, suggestions `x`, `y` and body ` hello `. -/
theorem c8_parser_round_trip_witness :
    parseResponse (tagLit "idle".data ++ (suggLit ++
        ("x".data ++ '|' :: ("y".data ++ ']' :: " hello ".data)))) =
      { response := trimSpace " hello ".data, emotion := "idle".data,
        suggestions := ["x".data, "y".data] } :=
  c8_parser_round_trip.1 "idle".data "x".data "y".data " hello ".data
    (by decide) (by decide) (by decide) (by decide) (by decide)
    (by decide) (by decide) (by decide) (by decide)
    (by decide) (by decide) (by decide) (by decide)
